import Mathlib

/-!
Verification of the photo_organizer per-file pipeline.

Shallow embedding of the Python sources under `src/photo_organizer/`:
`whatsapp.py`, `metadata.py`, `duplicates.py`, `organizer.py`.
External collaborators (exiftool, the filesystem, interactive prompts) are
modelled as oracle parameters; everything with branching logic is translated
directly from the source.
-/

namespace PhotoOrg

/-! ### Basic character helpers (ASCII semantics of `str.lower`, `\s`, `\d`) -/

/-- ASCII lowercasing, as applied by `re.IGNORECASE` / `str.lower()` on the
ASCII letters occurring in the patterns. -/
def lowerChar (c : Char) : Char :=
  if 65 ≤ c.toNat ∧ c.toNat ≤ 90 then Char.ofNat (c.toNat + 32) else c

/-- Whitespace class `\s` (ASCII part, which is all that can occur around the
literal tokens of the filename patterns). -/
def isSpaceChar (c : Char) : Bool :=
  c = ' ' ∨ c = '\t' ∨ c = '\n' ∨ c = '\r' ∨ c.toNat = 11 ∨ c.toNat = 12

/-- Digit class `\d` (ASCII). -/
def digitVal (c : Char) : Option Nat :=
  if 48 ≤ c.toNat ∧ c.toNat ≤ 57 then some (c.toNat - 48) else none

abbrev Chars := List Char

/-- Case-insensitive literal match of `lit` (given lowercase) against a prefix
of the input; returns the rest of the input on success. -/
def matchCI : Chars → Chars → Option Chars
  | [], rest => some rest
  | _, [] => none
  | l :: ls, c :: cs => if lowerChar c = l then matchCI ls cs else none

/-- Consume a maximal run of whitespace (`\s*`). -/
def spaceStar : Chars → Chars
  | [] => []
  | c :: cs => if isSpaceChar c then spaceStar cs else c :: cs

/-- Consume `\s+`: at least one whitespace character, then a maximal run.
Maximal munch is faithful here because every pattern continues with a
non-whitespace token after `\s+`. -/
def spacePlus : Chars → Option Chars
  | [] => none
  | c :: cs => if isSpaceChar c then some (spaceStar cs) else none

/-- Read exactly one digit. -/
def digit1 : Chars → Option (Nat × Chars)
  | [] => none
  | c :: cs => match digitVal c with
    | some d => some (d, cs)
    | none => none

/-- Read exactly two digits (`\d{2}`). -/
def digits2 (cs : Chars) : Option (Nat × Chars) :=
  match digit1 cs with
  | some (a, cs1) => match digit1 cs1 with
    | some (b, cs2) => some (a * 10 + b, cs2)
    | none => none
  | none => none

/-- Read exactly four digits (`\d{4}`). -/
def digits4 (cs : Chars) : Option (Nat × Chars) :=
  match digits2 cs with
  | some (a, cs1) => match digits2 cs1 with
    | some (b, cs2) => some (a * 100 + b, cs2)
    | none => none
  | none => none

/-- Read `\d+`: at least one digit, then a maximal run (nothing in the
patterns follows `\d+`, so maximal munch is faithful). -/
def digitPlus (cs : Chars) : Option Chars :=
  match digit1 cs with
  | some (_, cs1) => some (cs1.dropWhile fun c => (digitVal c).isSome)
  | none => none

/-- Match a single literal character (non-letter, so case plays no role). -/
def matchLit (l : Char) : Chars → Option Chars
  | [] => none
  | c :: cs => if c = l then some cs else none

/-! ### `whatsapp.py`: filename patterns -/

/-- AM/PM suffix group of the full datetime pattern. -/
inductive AmPm | am | pm
deriving DecidableEq, Repr

/-- Pattern-kind tag of a parse result (`pattern_type` field). -/
inductive PatternType | full | dateOnly
deriving DecidableEq, Repr

/-- Calendar date as produced by Python `datetime.date`. -/
structure Date where
  year : Nat
  month : Nat
  day : Nat
deriving DecidableEq, Repr

/-- Time of day as produced by Python `datetime.time`. -/
structure Time where
  hour : Nat
  minute : Nat
  second : Nat
deriving DecidableEq, Repr

/-- Result of parsing a WhatsApp filename (`WhatsAppDateTime` named tuple). -/
structure WhatsAppDateTime where
  date_value : Date
  time_value : Option Time
  pattern_type : PatternType
  original_pattern : String
deriving DecidableEq, Repr

/-- Gregorian leap-year rule, as enforced by `datetime.date`. -/
def isLeap (y : Nat) : Bool := y % 4 = 0 ∧ (y % 100 ≠ 0 ∨ y % 400 = 0)

/-- Number of days of a month, as enforced by `datetime.date`. -/
def daysInMonth (y m : Nat) : Nat :=
  if m = 2 then (if isLeap y then 29 else 28)
  else if m = 4 ∨ m = 6 ∨ m = 9 ∨ m = 11 then 30
  else 31

/-- Validity check performed by the `datetime.date` constructor
(`ValueError` on violation). -/
def validDate (y m d : Nat) : Bool :=
  1 ≤ y ∧ y ≤ 9999 ∧ 1 ≤ m ∧ m ≤ 12 ∧ 1 ≤ d ∧ d ≤ daysInMonth y m

/-- Validity check performed by the `datetime.time` constructor. -/
def validTime (h mi s : Nat) : Bool := h ≤ 23 ∧ mi ≤ 59 ∧ s ≤ 59

/-- Groups captured by `WHATSAPP_FULL_DATETIME_PATTERN`:
year, month, day, hour, minute, second, optional AM/PM. -/
structure FullGroups where
  year : Nat
  month : Nat
  day : Nat
  hour : Nat
  minute : Nat
  second : Nat
  am_pm : Option AmPm
deriving DecidableEq, Repr

/-- Matcher for
`^WhatsApp\s+(Image|Video)\s+(\d{4})-(\d{2})-(\d{2})\s+at\s+(\d{1,2})\.(\d{2})\.(\d{2})\s*(AM|PM)?`
with `re.IGNORECASE`, under `re.match` (anchored prefix) semantics. -/
def matchFull (cs : Chars) : Option FullGroups := do
  let cs ← matchCI "whatsapp".data cs
  let cs ← spacePlus cs
  let cs ← match matchCI "image".data cs with
    | some r => some r
    | none => matchCI "video".data cs
  let cs ← spacePlus cs
  let (y, cs) ← digits4 cs
  let cs ← matchLit '-' cs
  let (mo, cs) ← digits2 cs
  let cs ← matchLit '-' cs
  let (da, cs) ← digits2 cs
  let cs ← spacePlus cs
  let cs ← matchCI "at".data cs
  let cs ← spacePlus cs
  -- `(\d{1,2})\.`: greedy two digits, backtracking to one if the dot fails
  let (h, cs) ←
    (match digits2 cs with
      | some (h, cs1) => match matchLit '.' cs1 with
        | some cs2 => some (h, cs2)
        | none => match digit1 cs with
          | some (h1, cs1) => match matchLit '.' cs1 with
            | some cs2 => some (h1, cs2)
            | none => none
          | none => none
      | none => match digit1 cs with
        | some (h1, cs1) => match matchLit '.' cs1 with
          | some cs2 => some (h1, cs2)
          | none => none
        | none => none)
  let (mi, cs) ← digits2 cs
  let cs ← matchLit '.' cs
  let (se, cs) ← digits2 cs
  let cs := spaceStar cs
  let ap : Option AmPm :=
    match matchCI "am".data cs with
    | some _ => some .am
    | none => match matchCI "pm".data cs with
      | some _ => some .pm
      | none => none
  pure ⟨y, mo, da, h, mi, se, ap⟩

/-- Matcher for `^(IMG|VID)sep(\d{4})(\d{2})(\d{2})sepWA\d+` with
`re.IGNORECASE`, where `sep` is `-` or `_` depending on the variant. -/
def matchDateOnly (sep : Char) (cs : Chars) : Option (Nat × Nat × Nat) := do
  let cs ← match matchCI "img".data cs with
    | some r => some r
    | none => matchCI "vid".data cs
  let cs ← matchLit sep cs
  let (y, cs) ← digits4 cs
  let (mo, cs) ← digits2 cs
  let (da, cs) ← digits2 cs
  let cs ← matchLit sep cs
  let cs ← matchCI "wa".data cs
  let _ ← digitPlus cs
  pure (y, mo, da)

/-- Keep only what follows the last occurrence of `sep` (Python
`filename.split(sep)[-1]`, guarded by an `in` test that does not change the
result when `sep` is absent). -/
def afterLast (sep : Char) (cs : Chars) : Chars :=
  (cs.foldl (fun acc c => if c = sep then [] else c :: acc) []).reverse

/-- AM/PM hour normalization from `parse_whatsapp_filename`:
`if am_pm == 'PM' and hour != 12: hour += 12 elif am_pm == 'AM' and hour == 12: hour = 0`. -/
def adjustHour (h : Nat) (ap : Option AmPm) : Nat :=
  match ap with
  | some .pm => if h ≠ 12 then h + 12 else h
  | some .am => if h = 12 then 0 else h
  | none => h

/-- Date-only loop of `parse_whatsapp_filename`: dash variant first, then the
underscore variant; a `ValueError` from an invalid date continues to the next
variant. -/
def tryDateOnly (cs : Chars) : Option WhatsAppDateTime :=
  let tryUnderscore : Option WhatsAppDateTime :=
    match matchDateOnly '_' cs with
    | some (y, mo, da) =>
      if validDate y mo da then
        some ⟨⟨y, mo, da⟩, none, .dateOnly, "whatsapp_date_only_underscore"⟩
      else none
    | none => none
  match matchDateOnly '-' cs with
  | some (y, mo, da) =>
    if validDate y mo da then
      some ⟨⟨y, mo, da⟩, none, .dateOnly, "whatsapp_date_only"⟩
    else tryUnderscore
  | none => tryUnderscore

/-- Embedding of `parse_whatsapp_filename` (whatsapp.py lines 49-117). -/
def parse_whatsapp_filename (filename : String) : Option WhatsAppDateTime :=
  let cs := afterLast '\\' (afterLast '/' filename.data)
  match matchFull cs with
  | some g =>
    let h := adjustHour g.hour g.am_pm
    if validDate g.year g.month g.day ∧ validTime h g.minute g.second then
      some ⟨⟨g.year, g.month, g.day⟩, some ⟨h, g.minute, g.second⟩, .full,
        "whatsapp_full_datetime"⟩
    else none
  | none => tryDateOnly cs

/-! ### `metadata.py`: datetime resolution from the raw tag map -/

/-- Python `datetime` value (flattened). -/
structure DateTime where
  year : Nat
  month : Nat
  day : Nat
  hour : Nat
  minute : Nat
  second : Nat
deriving DecidableEq, Repr

/-- Priority-ordered datetime tag list (`DATETIME_TAGS`, metadata.py lines
17-30). -/
def DATETIME_TAGS : List String :=
  ["EXIF:DateTimeOriginal", "EXIF:CreateDate", "EXIF:ModifyDate",
   "XMP:DateTimeOriginal", "XMP:CreateDate", "XMP:ModifyDate",
   "QuickTime:CreateDate", "QuickTime:ModifyDate",
   "QuickTime:MediaCreateDate", "QuickTime:MediaModifyDate",
   "QuickTime:TrackCreateDate", "QuickTime:TrackModifyDate"]

/-- Raw metadata map (exiftool JSON object); tag values are modelled as
strings, which is what exiftool reports for every datetime tag. -/
abbrev RawMetadata := List (String × String)

/-- Python `raw_metadata.get(tag)` (dict keys are unique; first match). -/
def getTag (raw : RawMetadata) (tag : String) : Option String :=
  (raw.find? fun p => p.1 = tag).map (·.2)

/-- Read exactly four digits, continuation style (`%Y`, regex `\d\d\d\d`). -/
def parseY (cs : Chars) (k : Nat → Chars → Option DateTime) : Option DateTime :=
  match cs with
  | a :: b :: c :: d :: rest =>
    match digitVal a, digitVal b, digitVal c, digitVal d with
    | some w, some x, some y, some z => k (((w * 10 + x) * 10 + y) * 10 + z) rest
    | _, _, _, _ => none
  | _ => none

/-- Two-digits-then-one-digit numeric field with regex-style backtracking:
the two-digit branch (value within `[min2, max2]`) is tried first, and the
one-digit branch (value within `[min1, max1]`) is tried if the two-digit
branch or its continuation fails.  This is how `strptime` compiles `%m`,
`%d`, `%H`, `%M`, `%S`. -/
def parse2or1 (min2 max2 min1 max1 : Nat) (cs : Chars)
    (k : Nat → Chars → Option DateTime) : Option DateTime :=
  (match cs with
    | c1 :: c2 :: rest =>
      match digitVal c1, digitVal c2 with
      | some a, some b =>
        let v := a * 10 + b
        if min2 ≤ v ∧ v ≤ max2 then k v rest else none
      | _, _ => none
    | _ => none)
  <|>
  (match cs with
    | c1 :: rest =>
      match digitVal c1 with
      | some a => if min1 ≤ a ∧ a ≤ max1 then k a rest else none
      | none => none
    | [] => none)

/-- Continuation-style literal character. -/
def parseLit (ch : Char) (cs : Chars) (k : Chars → Option DateTime) :
    Option DateTime :=
  match cs with
  | c :: rest => if c = ch then k rest else none
  | [] => none

/-- One `datetime.strptime` call for a format of the shape
`%Y sep %m sep %d tsep %H:%M:%S`: the regex must consume the whole (already
truncated) string, and the `datetime` constructor then validates the calendar
date and the time (raising `ValueError`, i.e. `none`, otherwise). -/
def strptimeFmt (sep tsep : Char) (cs : Chars) : Option DateTime :=
  parseY cs fun y cs =>
  parseLit sep cs fun cs =>
  parse2or1 1 12 1 9 cs fun mo cs =>
  parseLit sep cs fun cs =>
  parse2or1 1 31 1 9 cs fun da cs =>
  parseLit tsep cs fun cs =>
  parse2or1 0 23 0 9 cs fun h cs =>
  parseLit ':' cs fun cs =>
  parse2or1 0 59 0 9 cs fun mi cs =>
  parseLit ':' cs fun cs =>
  parse2or1 0 61 0 9 cs fun se cs =>
  if cs = [] then
    if validDate y mo da ∧ validTime h mi se then
      some ⟨y, mo, da, h, mi, se⟩
    else none
  else none

/-- Format list of `_parse_datetime_string` after the source's truncation
trick (`fmt[:len(fmt.replace('%z','').replace('Z',''))]` applied to each
entry, with the value cut to 19 characters): each format reduces to a
(date separator, date-time separator) pair. -/
def DATETIME_FORMATS : List (Char × Char) :=
  [(':', ' '), ('-', ' '), (':', ' '), ('-', 'T'), ('-', 'T'), ('-', 'T'),
   ('/', ' ')]

/-- Try each accepted layout in order until one parses. -/
def tryFormats (v19 : Chars) : List (Char × Char) → Option DateTime
  | [] => none
  | (s, t) :: rest =>
    match strptimeFmt s t v19 with
    | some dt => some dt
    | none => tryFormats v19 rest

/-- Python `str.strip()` (ASCII whitespace). -/
def trimAscii (cs : Chars) : Chars :=
  ((cs.dropWhile isSpaceChar).reverse.dropWhile isSpaceChar).reverse

/-- Zero sentinel rejected by `_parse_datetime_string`. -/
def zeroSentinel : String := "0000:00:00 00:00:00"

/-- Embedding of `MetadataHandler._parse_datetime_string`
(metadata.py lines 281-310). -/
def parse_datetime_string (value : String) : Option DateTime :=
  let vs := trimAscii value.data
  if vs = [] ∨ vs = zeroSentinel.data then none
  else tryFormats (vs.take 19) DATETIME_FORMATS

/-- Outcome of looking one tag up and parsing its value: the tag contributes
a datetime iff it is present, truthy (non-empty) and its value parses. -/
def tagParsedValue (raw : RawMetadata) (tag : String) : Option DateTime :=
  match getTag raw tag with
  | some v => if v ≠ "" then parse_datetime_string v else none
  | none => none

/-- Tag loop of `_parse_datetime`. -/
def parseDatetimeAux (raw : RawMetadata) :
    List String → Option DateTime × Option String
  | [] => (none, none)
  | tag :: rest =>
    match tagParsedValue raw tag with
    | some dt => (some dt, some tag)
    | none => parseDatetimeAux raw rest

/-- Embedding of `MetadataHandler._parse_datetime` (metadata.py lines
271-279). -/
def parse_datetime (raw : RawMetadata) : Option DateTime × Option String :=
  parseDatetimeAux raw DATETIME_TAGS

/-! ### Decimal rendering of integers (Python `str(int)` / `format`) -/

/-- Decimal digit to character. -/
def digitChar (d : Nat) : Char :=
  match d with
  | 0 => '0' | 1 => '1' | 2 => '2' | 3 => '3' | 4 => '4'
  | 5 => '5' | 6 => '6' | 7 => '7' | 8 => '8' | 9 => '9'
  | _ => '*'

/-- Digit accumulation (decimal value of a digit string). -/
def strNatAux (cs : Chars) : Nat :=
  cs.foldl (fun acc c => acc * 10 + (digitVal c).getD 0) 0

/-- Fuelled digit expansion of a positive number, most significant first. -/
def natStrAux : Nat → Nat → Chars
  | 0, _ => []
  | fuel + 1, n => if n = 0 then [] else natStrAux fuel (n / 10) ++ [digitChar (n % 10)]

/-- Python `str(n)` for a non-negative integer. -/
def natStr (n : Nat) : String :=
  if n = 0 then "0" else ⟨natStrAux (n + 1) n⟩

/-! ### `organizer.py`: pattern rendering (`_format_pattern`) -/

/-- Value bound to a pattern placeholder. -/
inductive FmtVal
  | int (n : Nat)
  | str (s : String)
deriving DecidableEq, Repr

/-- Case-sensitive literal prefix match; returns the rest on success. -/
def dropLit : Chars → Chars → Option Chars
  | [], rest => some rest
  | _, [] => none
  | l :: ls, c :: cs => if c = l then dropLit ls cs else none

/-- Left padding to a given width. -/
def padLeft (fill : Char) (width : Nat) (s : String) : String :=
  if s.length < width then ⟨List.replicate (width - s.length) fill ++ s.data⟩ else s

/-- Right padding to a given width. -/
def padRight (width : Nat) (s : String) : String :=
  if s.length < width then ⟨s.data ++ List.replicate (width - s.length) ' '⟩ else s

/-- Python `format(int_value, spec)` for a non-empty spec, on the fragment of
the format mini-language the organizer's placeholders can use
(`[0][width][d]`, e.g. `02d`); any other spec raises, i.e. `none`. -/
def formatIntSpec (n : Nat) (spec : Chars) : Option String :=
  let zero := spec.head? = some '0'
  let rest := if zero then spec.drop 1 else spec
  let widthDigits := rest.takeWhile fun c => (digitVal c).isSome
  let rest2 := rest.drop widthDigits.length
  let width := strNatAux widthDigits
  match rest2 with
  | [] => some (padLeft (if zero then '0' else ' ') width (natStr n))
  | ['d'] => some (padLeft (if zero then '0' else ' ') width (natStr n))
  | _ => none

/-- Python `format(str_value, spec)` for a non-empty spec: plain width
(strings left-align, space fill); any other spec raises, i.e. `none`. -/
def formatStrSpec (s : String) (spec : Chars) : Option String :=
  let widthDigits := spec.takeWhile fun c => (digitVal c).isSome
  if widthDigits = spec ∧ spec ≠ [] then some (padRight (strNatAux widthDigits) s)
  else none

/-- Python `format(value, spec or '')` as invoked by the substitution lambda
of `_format_pattern`. -/
def formatVal : FmtVal → Chars → Option String
  | .int n, [] => some (natStr n)
  | .int n, spec => formatIntSpec n spec
  | .str s, [] => some s
  | .str s, spec => formatStrSpec s spec

/-- Scanner for `re.sub(r'\{key(?::([^}]+))?\}', repl, text)` for one key:
walks the text left to right; at a match (`{key}` or `{key:spec}` with a
non-empty, brace-free spec) it emits the formatted value and resumes after
the match; otherwise it emits the character and moves on.  A `none` from
`formatVal` is the replacement lambda raising, which propagates.  The fuel
starts at the text length and dominates it throughout. -/
def subKeyAux (key : Chars) (fv : FmtVal) : Nat → Chars → Option Chars
  | _, [] => some []
  | 0, _ :: _ => none
  | fuel + 1, c :: cs =>
    let noMatch : Option Chars := (subKeyAux key fv fuel cs).map (c :: ·)
    if c = '{' then
      match dropLit key cs with
      | some afterKey =>
        match afterKey with
        | '}' :: rest =>
          match formatVal fv [] with
          | some f => (subKeyAux key fv fuel rest).map (f.data ++ ·)
          | none => none
        | ':' :: afterColon =>
          let spec := afterColon.takeWhile (· ≠ '}')
          if spec = [] then noMatch
          else
            match afterColon.drop spec.length with
            | '}' :: rest =>
              match formatVal fv spec with
              | some f => (subKeyAux key fv fuel rest).map (f.data ++ ·)
              | none => none
            | _ => noMatch
        | _ => noMatch
      | none => noMatch
    else noMatch

/-- One `re.sub` pass of `_format_pattern` for one placeholder key. -/
def subKey (key : Chars) (fv : FmtVal) (cs : Chars) : Option Chars :=
  subKeyAux key fv cs.length cs

/-- Month name tables (`MONTH_NAMES`, `MONTH_NAMES_SHORT`), with the empty
sentinel at index 0. -/
def MONTH_NAMES : List String :=
  ["", "January", "February", "March", "April", "May", "June",
   "July", "August", "September", "October", "November", "December"]

def MONTH_NAMES_SHORT : List String :=
  ["", "Jan", "Feb", "Mar", "Apr", "May", "Jun",
   "Jul", "Aug", "Sep", "Oct", "Nov", "Dec"]

/-- ASCII `str.lower()`. -/
def lowerStr (s : String) : String := ⟨s.data.map lowerChar⟩

/-- Python `s.lstrip('.')`. -/
def lstripDots (s : String) : String := ⟨s.data.dropWhile (· = '.')⟩

/-- Final path component (`Path(p).name`; POSIX separator). -/
def pathName (p : String) : String := ⟨afterLast '/' p.data⟩

/-- Index of the last occurrence of a character. -/
def lastIdxOf (c : Char) (cs : Chars) : Option Nat :=
  (cs.foldl (fun st ch => (st.1 + 1, if ch = c then some st.1 else st.2))
    ((0 : Nat), (none : Option Nat))).2

/-- Python `PurePath.stem`: the final component without its suffix; the last
dot counts only when it is neither leading nor trailing. -/
def pathStem (p : String) : String :=
  let base := afterLast '/' p.data
  match lastIdxOf '.' base with
  | some i => if 0 < i ∧ i < base.length - 1 then ⟨base.take i⟩ else ⟨base⟩
  | none => ⟨base⟩

/-- Python `PurePath.suffix`, under the same dot rule. -/
def pathSuffix (p : String) : String :=
  let base := afterLast '/' p.data
  match lastIdxOf '.' base with
  | some i => if 0 < i ∧ i < base.length - 1 then ⟨base.drop i⟩ else ""
  | none => ""

/-- Placeholder table of `_format_pattern` (organizer.py lines 101-113), in
the source's insertion order.  `MONTH_NAMES[dt.month]` is a list index that
cannot be out of range for a `datetime` value (month is 1..12); the `getD`
default is therefore never produced for such values. -/
def formatVars (dt : DateTime) (original_name ext : String) :
    List (Chars × FmtVal) :=
  [("year".data, .int dt.year), ("month".data, .int dt.month),
   ("day".data, .int dt.day), ("hour".data, .int dt.hour),
   ("min".data, .int dt.minute), ("sec".data, .int dt.second),
   ("month_name".data, .str (MONTH_NAMES.getD dt.month "")),
   ("month_name_short".data, .str (MONTH_NAMES_SHORT.getD dt.month "")),
   ("original_name".data, .str (pathStem original_name)),
   ("ext".data, .str (lstripDots (lowerStr ext)))]

/-- Embedding of `PhotoOrganizer._format_pattern` (organizer.py lines
89-125); `none` is an exception escaping the substitution lambda. -/
def _format_pattern (pat : String) (dt : DateTime) (original_name ext : String) :
    Option String :=
  ((formatVars dt original_name ext).foldlM
    (fun acc kv => subKey kv.1 kv.2 acc) pat.data).map fun cs => ⟨cs⟩

/-- String suffix test (`str.endswith`). -/
def endsWithStr (s suffix : String) : Bool :=
  (dropLit suffix.data.reverse s.data.reverse).isSome

/-- Filename half of `_get_destination_path` (organizer.py lines 140-145):
render the filename pattern, then append the extension unless already
present case-insensitively. -/
def destinationFilename (filename_pattern : String) (dt : DateTime)
    (original_name ext : String) : Option String :=
  (_format_pattern filename_pattern dt original_name ext).map fun filename =>
    if endsWithStr (lowerStr filename) (lowerStr ext) then filename
    else filename ++ "." ++ lstripDots ext

/-- Embedding of `PhotoOrganizer._get_destination_path` (organizer.py lines
127-147), rendered to a path string `destination/folder/filename`. -/
def _get_destination_path (destination folder_pattern filename_pattern : String)
    (dt : DateTime) (original_name ext : String) : Option String := do
  let folder ← _format_pattern folder_pattern dt original_name ext
  let filename ← destinationFilename filename_pattern dt original_name ext
  pure (destination ++ "/" ++ folder ++ "/" ++ filename)

/-! ### `organizer.py`: filename collision resolution (lines 472-480) -/

/-- Directory part (`PurePath.parent`; POSIX separator). -/
def pathParent (p : String) : String :=
  match lastIdxOf '/' p.data with
  | some i => if 0 < i then ⟨p.data.take i⟩ else "/"
  | none => "."

/-- Candidate path `base_dest.parent / f"{stem}_{counter}{suffix}"`. -/
def candidate (base : String) (k : Nat) : String :=
  pathParent base ++ "/" ++ pathStem (pathName base) ++ "_" ++ natStr k ++
    pathSuffix (pathName base)

/-- Collision loop: starting from counter `k`, return the first candidate not
among the existing paths; the fuel bounds the search and is chosen large
enough to be immaterial (see `resolveCollision_spec`). -/
def resolveCollisionAux (occ : List String) (base : String) : Nat → Nat → String
  | k, 0 => candidate base k
  | k, fuel + 1 =>
    if candidate base k ∈ occ then resolveCollisionAux occ base (k + 1) fuel
    else candidate base k

/-- Embedding of the `while dest_path.exists()` loop of
`PhotoOrganizer.process_file` (organizer.py lines 472-480), entered when the
base destination exists with different content. -/
def resolveCollision (occ : List String) (base : String) : String :=
  resolveCollisionAux occ base 1 (occ.length + 1)

/-! ### `duplicates.py`: the duplicate detector -/

/-- Filesystem oracle: `Path.resolve` and the SHA-256 content hash of the
file at a (resolved) path.  Hashing is pure for the duration of a run, which
also makes the source's `_hash_cache` semantically transparent; the cache is
therefore not modelled. -/
structure FsEnv where
  resolve : String → String
  hashOf : String → String

/-- Result of `compute_hash` on an already-resolved path `rp` (the method
resolves its argument again before hashing). -/
def compute_hash (env : FsEnv) (rp : String) : String :=
  env.hashOf (env.resolve rp)

/-- Registry of the detector: hash → first registered resolved path. -/
structure DetectorState where
  registry : List (String × String)
deriving DecidableEq, Repr

/-- Dict lookup `hash in registry` / `registry[hash]`. -/
def regLookup (reg : List (String × String)) (h : String) : Option String :=
  (reg.find? fun p => p.1 = h).map (·.2)

/-- Dict assignment `registry[hash] = path` (newest binding shadows). -/
def regSet (reg : List (String × String)) (h v : String) :
    List (String × String) :=
  (h, v) :: reg

/-- Embedding of `DuplicateDetector.register_file` (duplicates.py lines
68-87). -/
def register_file (env : FsEnv) (st : DetectorState) (p : String)
    (hv : Option String) : String × DetectorState :=
  let rp := env.resolve p
  let h := match hv with
    | some h => h
    | none => compute_hash env rp
  if regLookup st.registry h = none then (h, ⟨regSet st.registry h rp⟩)
  else (h, st)

/-- Embedding of `DuplicateDetector.is_duplicate` (duplicates.py lines
89-108). -/
def is_duplicate (env : FsEnv) (st : DetectorState) (p : String) :
    Bool × Option String :=
  let rp := env.resolve p
  let h := compute_hash env rp
  match regLookup st.registry h with
  | some existing => if existing ≠ rp then (true, some existing) else (false, none)
  | none => (false, none)

/-- Embedding of `DuplicateDetector.check_and_register` (duplicates.py lines
110-129). -/
def check_and_register (env : FsEnv) (st : DetectorState) (p : String) :
    (Bool × Option String × String) × DetectorState :=
  let rp := env.resolve p
  let h := compute_hash env rp
  match regLookup st.registry h with
  | some existing =>
    if existing ≠ rp then ((true, some existing, h), st)
    else ((false, none, h), ⟨regSet st.registry h rp⟩)
  | none => ((false, none, h), ⟨regSet st.registry h rp⟩)

/-- One detector call, as far as the registry state is concerned
(`is_duplicate` is read-only). -/
inductive DetOp
  | register (p : String) (hv : Option String)
  | check (p : String)
  | isDup (p : String)

def detStep (env : FsEnv) (st : DetectorState) : DetOp → DetectorState
  | .register p hv => (register_file env st p hv).2
  | .check p => (check_and_register env st p).2
  | .isDup _ => st

/-- Registry state after a sequence of detector calls. -/
def detRun (env : FsEnv) (st : DetectorState) (ops : List DetOp) : DetectorState :=
  ops.foldl (detStep env) st

/-! ### `organizer.py`: the per-file pipeline (`PhotoOrganizer.process_file`)

External collaborators appear as oracles: exiftool metadata reads, content
hashing, `find_matching_date`, interactive prompts and the copy/move
primitives.  Fallible collaborators return `Except String` (the carried
string is the exception message); an uncaught fault is converted to the
`error` outcome by the surrounding `try`/`except`, as in the source.
The run statistics counters are not modelled (no claim concerns them). -/

/-- GPS coordinate pair; the pipeline only threads coordinates around and
never computes with them, so an integer pair is a faithful stand-in for the
float pair. -/
abbrev Loc := Int × Int

/-- Parsed metadata fields of `MediaMetadata` that the pipeline branches on.
`has_location` abbreviates `latitude is not None and longitude is not None`
(the coordinate values themselves steer no branch). -/
structure MediaMetadata where
  datetime_original : Option DateTime
  datetime_source_tag : Option String
  has_location : Bool
  original_filename : Option String
  alternate_filename : Option String
deriving DecidableEq, Repr

/-- Configuration fields of `OrganizerConfig` read by `process_file`,
with the destination root pre-rendered as a path string. -/
structure OrganizerConfig where
  skip_duplicates : Bool
  dry_run : Bool
  move_files : Bool
  skip_location : Bool
  default_location : Option Loc
  folder_pattern : String
  filename_pattern : String
  destination : String
deriving Repr

/-- Oracles for the external collaborators of one run. -/
structure OrgEnv where
  read_metadata : String → Except String MediaMetadata
  resolve : String → String
  hashAt : String → Except String String
  find_matching_date : String → Option (DateTime × String)
  prompt_time : String → Option Time
  prompt_location : String → Option Loc
  copy_ok : String → String → Except String Bool
  move_ok : String → String → Except String Bool

/-- Observable action of one `process_file` call. -/
inductive Effect
  | computeHash (p : String)
  | promptTime (p : String)
  | promptLocation (p : String)
  | copyFile (src dst : String)
  | moveFile (src dst : String)
  | setOriginalFilename (p : String)
  | setDatetimeOriginal (p : String)
  | setGps (p : String)
  | setVersion (p : String)
  | setTimestamps (p : String)
deriving DecidableEq, Repr

/-- Mutating steps: the file copy/move and every metadata/timestamp
writeback.  Hash computations and prompts read only. -/
def Effect.isMutating : Effect → Bool
  | .copyFile _ _ => true
  | .moveFile _ _ => true
  | .setOriginalFilename _ => true
  | .setDatetimeOriginal _ => true
  | .setGps _ => true
  | .setVersion _ => true
  | .setTimestamps _ => true
  | _ => false

/-- Mutable run state threaded through the pipeline: the
`_processed_files_registry` (original filename → destination), the
duplicate detector's `_hash_registry` (hash → resolved path) and the set of
paths existing on disk. -/
structure OrgState where
  processed : List (String × String)
  fingerprints : List (String × String)
  fsPaths : List String
deriving DecidableEq, Repr

/-- Terminal outcome kinds of `ProcessingResult.status`. -/
inductive PStatus
  | success
  | skipped_duplicate
  | skipped_no_datetime
  | skipped_no_location
  | error
deriving DecidableEq, Repr

/-- Embedding of `ProcessingResult` (organizer.py lines 20-32). -/
structure ProcessingResult where
  source_path : String
  destination_path : Option String
  status : PStatus
  message : String
  datetime_used : Option DateTime := none
  datetime_source : Option String := none
  original_filename : Option String := none
  original_filename_set : Bool := false
  location_set : Bool := false
  version_set : Bool := false
deriving DecidableEq, Repr

/-- Result built by the `except Exception` handler of `process_file`. -/
def errResult (filepath msg : String) : ProcessingResult :=
  { source_path := filepath, destination_path := none, status := .error,
    message := msg }

/-- Embedding of `PhotoOrganizer._handle_original_filename` (organizer.py
lines 240-261).  `has_original_filename` is the strip-based truthiness;
`current_name != metadata.alternate_filename` compares a string against an
optional string, so a `None` alternate never equals the name. -/
def _handle_original_filename (name : String) (m : MediaMetadata) :
    String × Bool :=
  match m.original_filename with
  | some original =>
    if (⟨trimAscii original.data⟩ : String) ≠ "" then
      if name ≠ original ∧ m.alternate_filename ≠ some name then (original, true)
      else (original, false)
    else (name, true)
  | none => (name, true)

/-- Embedding of `PhotoOrganizer._is_already_processed` (organizer.py lines
303-332): look up the provenance identity (truthy original filename, else
the current name), then fall back to the current name. -/
def _is_already_processed (st : OrgState) (name : String) (m : MediaMetadata) :
    Bool × Option String :=
  let identity := match m.original_filename with
    | some s => if s ≠ "" then s else name
    | none => name
  match regLookup st.processed identity with
  | some d => (true, some d)
  | none =>
    match regLookup st.processed name with
    | some d => (true, some d)
    | none => (false, none)

/-- Duplicate-check phase of `process_file` (organizer.py lines 373-396):
the provenance check, then `DuplicateDetector.check_and_register` with
fallible hashing.  Returns `some result` to terminate the file early. -/
def dupCheckPhase (cfg : OrganizerConfig) (env : OrgEnv) (st : OrgState)
    (filepath name : String) (m : MediaMetadata) :
    Option ProcessingResult × OrgState × List Effect :=
  if cfg.skip_duplicates then
    match _is_already_processed st name m with
    | (true, existing) =>
      (some { source_path := filepath, destination_path := existing,
              status := .skipped_duplicate,
              message := "Already processed to " ++
                (existing.getD "") }, st, [])
    | (false, _) =>
      let rp := env.resolve filepath
      match env.hashAt (env.resolve rp) with
      | .error e => (some (errResult filepath ("Error: " ++ e)), st,
          [.computeHash filepath])
      | .ok h =>
        match regLookup st.fingerprints h with
        | some existing =>
          if existing ≠ rp then
            (some { source_path := filepath, destination_path := none,
                    status := .skipped_duplicate,
                    message := "Exact content duplicate of " ++ existing },
              st, [.computeHash filepath])
          else (none, { st with fingerprints := regSet st.fingerprints h rp },
            [.computeHash filepath])
        | none => (none, { st with fingerprints := regSet st.fingerprints h rp },
            [.computeHash filepath])
  else (none, st, [])

/-- Combine a parsed date with a time of day (`datetime.combine`). -/
def combineDT (d : Date) (t : Time) : DateTime :=
  ⟨d.year, d.month, d.day, t.hour, t.minute, t.second⟩

/-- Embedding of `PhotoOrganizer._handle_whatsapp_datetime` (organizer.py
lines 204-238). -/
def _handle_whatsapp_datetime (cfg : OrganizerConfig) (env : OrgEnv)
    (filepath : String) (wa : WhatsAppDateTime) :
    (Option DateTime × Option String × Bool) × List Effect :=
  match wa.time_value with
  | some t =>
    ((some (combineDT wa.date_value t),
      some ("WhatsApp filename (" ++ wa.original_pattern ++ ")"), false), [])
  | none =>
    match env.find_matching_date filepath with
    | some (mdt, tag) =>
      ((some (combineDT wa.date_value ⟨mdt.hour, mdt.minute, mdt.second⟩),
        some ("Inferred from " ++ tag ++ " (matched date within 2 days)"),
        true), [])
    | none =>
      if ¬cfg.dry_run then
        match env.prompt_time filepath with
        | some t =>
          ((some (combineDT wa.date_value t),
            some "User-provided time for WhatsApp date-only file", true),
            [.promptTime filepath])
        | none => ((none, none, false), [.promptTime filepath])
      else ((none, none, false), [])

/-- WhatsApp pattern lookup of the datetime phase: the current name first,
then a truthy `XMP:OriginalFileName` (organizer.py lines 411-419). -/
def whatsappLookup (name : String) (m : MediaMetadata) :
    Option WhatsAppDateTime :=
  match parse_whatsapp_filename name with
  | some w => some w
  | none =>
    match m.original_filename with
    | some o => if o ≠ "" then parse_whatsapp_filename o else none
    | none => none

/-- Datetime-resolution phase of `process_file` (organizer.py lines
401-424): metadata datetime wins outright; else try the WhatsApp pattern on
the current name, then on a truthy `XMP:OriginalFileName`. -/
def datetimePhase (cfg : OrganizerConfig) (env : OrgEnv)
    (filepath name : String) (m : MediaMetadata) :
    (Option DateTime × Option String × Bool) × List Effect :=
  match m.datetime_original with
  | some dt => ((some dt, m.datetime_source_tag, false), [])
  | none =>
    match whatsappLookup name m with
    | some w => _handle_whatsapp_datetime cfg env filepath w
    | none => ((none, none, false), [])

/-- Location phase of `process_file` (organizer.py lines 437-453).  `none`
means the user declined the prompt (terminal skipped-no-location);
`some loc` carries `location_to_set`. -/
def locationPhase (cfg : OrganizerConfig) (env : OrgEnv) (filepath : String)
    (m : MediaMetadata) : Option (Option Loc) × List Effect :=
  if ¬m.has_location then
    match cfg.default_location with
    | some l => (some (some l), [])
    | none =>
      if ¬cfg.skip_location then
        if ¬cfg.dry_run then
          match env.prompt_location filepath with
          | some l => (some (some l), [.promptLocation filepath])
          | none => (none, [.promptLocation filepath])
        else (some none, [])
      else (some none, [])
  else (some none, [])

/-- Writeback effect list of the real-run branch (organizer.py lines
515-549): original/alternate filename, datetime, GPS, the version marker and
the timestamp restoration. -/
def writebackEffects (dest : String) (need_filename_update : Bool)
    (had_datetime : Bool) (location_to_set : Option Loc) : List Effect :=
  (if need_filename_update then [Effect.setOriginalFilename dest] else []) ++
  (if ¬had_datetime then [Effect.setDatetimeOriginal dest] else []) ++
  (if location_to_set.isSome then [Effect.setGps dest] else []) ++
  [Effect.setVersion dest, Effect.setTimestamps dest]

/-- Embedding of `PhotoOrganizer.process_file` (organizer.py lines 357-579).
Returns the per-file result, the updated run state and the effect trace. -/
def process_file (cfg : OrganizerConfig) (env : OrgEnv) (st : OrgState)
    (filepath : String) : ProcessingResult × OrgState × List Effect :=
  let name := pathName filepath
  match env.read_metadata filepath with
  | .error e => (errResult filepath ("Error: " ++ e), st, [])
  | .ok m =>
    match dupCheckPhase cfg env st filepath name m with
    | (some r, st1, effs1) => (r, st1, effs1)
    | (none, st1, effs1) =>
      let (original_filename, need_filename_update) :=
        _handle_original_filename name m
      let ((dtOpt, dt_source, _dt_inferred), effs2) :=
        datetimePhase cfg env filepath name m
      match dtOpt with
      | none =>
        ({ source_path := filepath, destination_path := none,
           status := .skipped_no_datetime,
           message := "No datetime found in metadata or filename" },
          st1, effs1 ++ effs2)
      | some dt =>
        match locationPhase cfg env filepath m with
        | (none, effs3) =>
          ({ source_path := filepath, destination_path := none,
             status := .skipped_no_location,
             message := "User skipped file (no location provided)" },
            st1, effs1 ++ effs2 ++ effs3)
        | (some location_to_set, effs3) =>
          match _get_destination_path cfg.destination cfg.folder_pattern
              cfg.filename_pattern dt original_filename (pathSuffix filepath) with
          | none =>
            (errResult filepath "Error: invalid format spec in pattern",
              st1, effs1 ++ effs2 ++ effs3)
          | some dest0 =>
            -- collision handling (lines 458-480)
            let collide : Except (ProcessingResult × List Effect)
                (String × List Effect) :=
              if dest0 ∈ st1.fsPaths ∧ ¬cfg.dry_run then
                match env.hashAt (env.resolve dest0) with
                | .error e =>
                  .error (errResult filepath ("Error: " ++ e),
                    [Effect.computeHash dest0])
                | .ok existing_hash =>
                  match env.hashAt (env.resolve filepath) with
                  | .error e =>
                    .error (errResult filepath ("Error: " ++ e),
                      [Effect.computeHash dest0, Effect.computeHash filepath])
                  | .ok source_hash =>
                    if existing_hash = source_hash then
                      .error
                        ({ source_path := filepath,
                           destination_path := some dest0,
                           status := .skipped_duplicate,
                           message := "Already exists at destination (same content)" },
                         [Effect.computeHash dest0, Effect.computeHash filepath])
                    else
                      .ok (resolveCollision st1.fsPaths dest0,
                        [Effect.computeHash dest0, Effect.computeHash filepath])
              else .ok (dest0, [])
            match collide with
            | .error (r, effs4) => (r, st1, effs1 ++ effs2 ++ effs3 ++ effs4)
            | .ok (dest, effs4) =>
              if cfg.dry_run then
                ({ source_path := filepath, destination_path := some dest,
                   status := .success, message := "Processed successfully",
                   datetime_used := some dt, datetime_source := dt_source,
                   original_filename := some original_filename,
                   original_filename_set := need_filename_update,
                   location_set := location_to_set.isSome,
                   version_set := false },
                  st1, effs1 ++ effs2 ++ effs3 ++ effs4)
              else
                match (if cfg.move_files then env.move_ok filepath dest
                  else env.copy_ok filepath dest) with
                | .error e =>
                  (errResult filepath ("Error: " ++ e), st1,
                    effs1 ++ effs2 ++ effs3 ++ effs4)
                | .ok false =>
                  (errResult filepath "Failed to copy/move file", st1,
                    effs1 ++ effs2 ++ effs3 ++ effs4)
                | .ok true =>
                  let opEff := if cfg.move_files then Effect.moveFile filepath dest
                    else Effect.copyFile filepath dest
                  let fs1 := dest :: (if cfg.move_files then
                    st1.fsPaths.erase filepath else st1.fsPaths)
                  let processed1 :=
                    let p0 := regSet st1.processed original_filename dest
                    if name ≠ original_filename then regSet p0 name dest else p0
                  ({ source_path := filepath, destination_path := some dest,
                     status := .success, message := "Processed successfully",
                     datetime_used := some dt, datetime_source := dt_source,
                     original_filename := some original_filename,
                     original_filename_set := need_filename_update,
                     location_set := location_to_set.isSome,
                     version_set := true },
                    { st1 with fsPaths := fs1, processed := processed1 },
                    effs1 ++ effs2 ++ effs3 ++ effs4 ++ [opEff] ++
                      writebackEffects dest need_filename_update
                        m.datetime_original.isSome location_to_set)

/-- Per-file loop of `PhotoOrganizer.run` (organizer.py lines 678-694):
strictly sequential, one result per file, state threaded. -/
def runFiles (cfg : OrganizerConfig) (env : OrgEnv) (st : OrgState) :
    List String → List ProcessingResult × OrgState
  | [] => ([], st)
  | f :: rest =>
    let (r, st1, _) := process_file cfg env st f
    let (rs, st2) := runFiles cfg env st1 rest
    (r :: rs, st2)

/-! ### Concrete run fixtures for witnesses and counterexamples -/

/-- Sample configuration: literal folder/filename patterns, copy mode. -/
def cfgBase : OrganizerConfig :=
  { skip_duplicates := false, dry_run := false, move_files := false,
    skip_location := false, default_location := none,
    folder_pattern := "f", filename_pattern := "g", destination := "dest" }

/-- Sample metadata: datetime and location present, no provenance tags. -/
def mdBase : MediaMetadata :=
  { datetime_original := some ⟨2024, 1, 2, 3, 4, 5⟩,
    datetime_source_tag := some "EXIF:DateTimeOriginal",
    has_location := true, original_filename := none,
    alternate_filename := none }

/-- Sample environment: every file carries `mdBase`, every file hashes to
`"h"`, prompts are declined, file operations succeed. -/
def envBase : OrgEnv :=
  { read_metadata := fun _ => .ok mdBase,
    resolve := id, hashAt := fun _ => .ok "h",
    find_matching_date := fun _ => none,
    prompt_time := fun _ => none, prompt_location := fun _ => none,
    copy_ok := fun _ _ => .ok true, move_ok := fun _ _ => .ok true }

/-- Sample initial state: the computed destination of `cfgBase` already
exists on disk. -/
def stBase : OrgState :=
  { processed := [], fingerprints := [], fsPaths := ["dest/f/g.jpg"] }

/-- Destination path a file would resolve to, recomputed from the pipeline's
own phases (metadata read, datetime resolution, provenance filename,
destination rendering); `none` when the file never reaches the destination
step or the pattern is invalid. -/
def plannedDest (cfg : OrganizerConfig) (env : OrgEnv) (filepath : String) :
    Option String :=
  match env.read_metadata filepath with
  | .error _ => none
  | .ok m =>
    match (datetimePhase cfg env filepath (pathName filepath) m).1.1 with
    | none => none
    | some dt =>
      _get_destination_path cfg.destination cfg.folder_pattern
        cfg.filename_pattern dt
        (_handle_original_filename (pathName filepath) m).1
        (pathSuffix filepath)

/-- Sample environment whose location prompt is answered. -/
def envLoc : OrgEnv :=
  { envBase with prompt_location := fun _ => some (1, 2) }

/-- Sample initial state with an empty destination tree. -/
def stEmpty : OrgState := { processed := [], fingerprints := [], fsPaths := [] }

/-- Environment whose metadata reads always fault. -/
def envErr : OrgEnv :=
  { envBase with read_metadata := fun _ => .error "boom" }

/-- Environment whose content hashing always faults. -/
def envHashErr : OrgEnv :=
  { envBase with hashAt := fun _ => .error "unreadable" }

/-- Environment whose existing destination file hashes differently from
every source file. -/
def envTwoHashes : OrgEnv :=
  { envBase with
    hashAt := fun p => .ok (if p = "dest/f/g.jpg" then "h1" else "h2") }

end PhotoOrg

namespace PhotoOrg

/-! ### Supporting lemmas -/

/-- Digits are left unchanged by lowercasing and differ from every lowercase
letter. -/
theorem lowerChar_digit {c : Char} (h : (digitVal c).isSome) : lowerChar c = c := by
  unfold digitVal at h
  split at h
  · rename_i hc
    unfold lowerChar
    rw [if_neg]
    omega
  · simp at h

theorem digit_toNat_le {c : Char} (h : (digitVal c).isSome) :
    48 ≤ c.toNat ∧ c.toNat ≤ 57 := by
  unfold digitVal at h
  split at h
  · rename_i hc; exact hc
  · simp at h

/-- A case-insensitive literal starting with a lowercase letter rejects an
input starting with a digit. -/
theorem matchCI_letter_digit {l : Char} (hl : 97 ≤ l.toNat) {c : Char}
    (h : (digitVal c).isSome) (ls : Chars) (cs : Chars) :
    matchCI (l :: ls) (c :: cs) = none := by
  have hle := digit_toNat_le h
  unfold matchCI
  rw [lowerChar_digit h, if_neg]
  intro heq
  subst heq
  omega

/-! ### Claim C3: AM/PM normalization of the full datetime pattern -/

/-- C3.  The parser normalizes 12-hour clock values: 12 AM becomes 0, 12 PM
stays 12, any other PM hour has 12 added (and any other AM hour is kept);
the two spec examples parse to 2024-10-01 10:06:47 (pattern-kind full) and
to 14:38:55. -/
theorem claim3_ampm_normalization :
    adjustHour 12 (some AmPm.am) = 0 ∧
    adjustHour 12 (some AmPm.pm) = 12 ∧
    (∀ h : Nat, h ≠ 12 → adjustHour h (some AmPm.pm) = h + 12) ∧
    (∀ h : Nat, h ≠ 12 → adjustHour h (some AmPm.am) = h) ∧
    parse_whatsapp_filename "WhatsApp Image 2024-10-01 at 10.06.47 AM.jpeg" =
      some ⟨⟨2024, 10, 1⟩, some ⟨10, 6, 47⟩, .full, "whatsapp_full_datetime"⟩ ∧
    parse_whatsapp_filename "WhatsApp Video 2025-02-03 at 2.38.55 PM.mp4" =
      some ⟨⟨2025, 2, 3⟩, some ⟨14, 38, 55⟩, .full, "whatsapp_full_datetime"⟩ := by
  refine ⟨rfl, rfl, ?_, ?_, by decide, by decide⟩
  · intro h hne; simp [adjustHour, hne]
  · intro h hne; simp [adjustHour, hne]

/-- C3 witness: the theorem applied at hour 2 PM and hour 10 AM. -/
theorem claim3_witness :
    adjustHour 2 (some AmPm.pm) = 2 + 12 ∧ adjustHour 10 (some AmPm.am) = 10 :=
  ⟨claim3_ampm_normalization.2.2.1 2 (by decide),
   claim3_ampm_normalization.2.2.2.1 10 (by decide)⟩

/-! ### Claim C4: case-insensitive, anchored matching -/

/-- C4.  Matching is case-insensitive (the all-lowercase and all-uppercase
spellings of the full pattern parse identically) and anchored at the start
of the path-stripped filename: a filename whose path-stripped form starts
with a digit — in particular any recognized pattern behind a date prefix —
never parses, and the spec's prefixed example yields no parse result. -/
theorem claim4_anchored_case_insensitive :
    parse_whatsapp_filename "2024-10-01_12-00-00-IMG-20241001-WA0001.jpg" = none ∧
    parse_whatsapp_filename "whatsapp image 2024-10-01 at 10.06.47 am.jpeg" =
      some ⟨⟨2024, 10, 1⟩, some ⟨10, 6, 47⟩, .full, "whatsapp_full_datetime"⟩ ∧
    parse_whatsapp_filename "WHATSAPP IMAGE 2024-10-01 AT 10.06.47 AM.JPEG" =
      some ⟨⟨2024, 10, 1⟩, some ⟨10, 6, 47⟩, .full, "whatsapp_full_datetime"⟩ ∧
    ∀ (s : String) (c : Char) (cs : Chars),
      afterLast '\\' (afterLast '/' s.data) = c :: cs →
      (digitVal c).isSome →
      parse_whatsapp_filename s = none := by
  refine ⟨by decide, by decide, by decide, ?_⟩
  intro s c cs hstrip hdig
  unfold parse_whatsapp_filename
  rw [hstrip]
  have hfull : matchFull (c :: cs) = none := by
    unfold matchFull
    rw [show ("whatsapp".data) = 'w' :: "hatsapp".data from rfl]
    rw [matchCI_letter_digit (by decide) hdig]
    rfl
  have himg : matchCI "img".data (c :: cs) = none := by
    rw [show ("img".data) = 'i' :: "mg".data from rfl]
    exact matchCI_letter_digit (by decide) hdig _ _
  have hvid : matchCI "vid".data (c :: cs) = none := by
    rw [show ("vid".data) = 'v' :: "id".data from rfl]
    exact matchCI_letter_digit (by decide) hdig _ _
  have hdo : ∀ sep, matchDateOnly sep (c :: cs) = none := by
    intro sep
    unfold matchDateOnly
    rw [himg, hvid]
    rfl
  simp only [hfull]
  unfold tryDateOnly
  simp only [hdo]

/-- C4 witness: the anchoring conjunct applied to the spec's concrete
prefixed filename. -/
theorem claim4_witness :
    parse_whatsapp_filename "2024-10-01_12-00-00-IMG-20241001-WA0001.jpg" = none :=
  claim4_anchored_case_insensitive.2.2.2
    "2024-10-01_12-00-00-IMG-20241001-WA0001.jpg" '2'
    "024-10-01_12-00-00-IMG-20241001-WA0001.jpg".data (by decide) (by decide)

/-! ### Claim C5: invalid calendar values fail softly -/

/-- C5.  A matched pattern whose digit groups form an invalid calendar date
or time yields no parse result instead of an error (month 13 in both the
full and the date-only pattern), and every successful parse carries only
valid calendar values — the parse is a total function and invalid values
never escape it. -/
theorem claim5_invalid_dates_fall_through :
    parse_whatsapp_filename "WhatsApp Image 2024-13-01 at 10.06.47 AM.jpeg" = none ∧
    parse_whatsapp_filename "IMG-20241301-WA0001.jpg" = none ∧
    parse_whatsapp_filename "IMG_20241301_WA0001.jpg" = none ∧
    ∀ (s : String) (w : WhatsAppDateTime),
      parse_whatsapp_filename s = some w →
      validDate w.date_value.year w.date_value.month w.date_value.day = true ∧
      ∀ t, w.time_value = some t → validTime t.hour t.minute t.second = true := by
  refine ⟨by decide, by decide, by decide, ?_⟩
  intro s w hparse
  unfold parse_whatsapp_filename at hparse
  cases hfull : matchFull (afterLast '\\' (afterLast '/' s.data)) with
  | some g =>
    simp only [hfull] at hparse
    split at hparse
    · rename_i hvalid
      cases hparse
      refine ⟨by simpa using hvalid.1, ?_⟩
      intro t ht
      cases ht
      simpa using hvalid.2
    · cases hparse
  | none =>
    simp only [hfull] at hparse
    unfold tryDateOnly at hparse
    cases hdash : matchDateOnly '-' (afterLast '\\' (afterLast '/' s.data)) with
    | some g =>
      simp only [hdash] at hparse
      split at hparse
      · rename_i hvalid
        cases hparse
        exact ⟨hvalid, by intro t ht; cases ht⟩
      · split at hparse
        · rename_i g2 hvalid2
          split at hparse
          · rename_i hv2
            cases hparse
            exact ⟨hv2, by intro t ht; cases ht⟩
          · cases hparse
        · cases hparse
    | none =>
      simp only [hdash] at hparse
      split at hparse
      · rename_i g2 hu
        split at hparse
        · rename_i hv2
          cases hparse
          exact ⟨hv2, by intro t ht; cases ht⟩
        · cases hparse
      · cases hparse

/-- C5 witness: the soundness conjunct applied to a concrete valid parse. -/
theorem claim5_witness :
    validDate 2024 10 1 = true ∧
    ∀ t, (some (⟨10, 6, 47⟩ : Time) : Option Time) = some t →
      validTime t.hour t.minute t.second = true := by
  have h := claim5_invalid_dates_fall_through.2.2.2
    "WhatsApp Image 2024-10-01 at 10.06.47 AM.jpeg"
    ⟨⟨2024, 10, 1⟩, some ⟨10, 6, 47⟩, .full, "whatsapp_full_datetime"⟩ (by decide)
  exact h

/-! ### Claim C10: duplicate-registry invariants -/

/-- Lookup after a dict assignment. -/
theorem regLookup_regSet (reg : List (String × String)) (h v h2 : String) :
    regLookup (regSet reg h v) h2 = if h2 = h then some v else regLookup reg h2 := by
  by_cases heq : h2 = h
  · subst heq; simp [regLookup, regSet, List.find?]
  · simp [regLookup, regSet, List.find?, heq, Ne.symm heq]

/-- One detector call never changes an existing registry binding. -/
theorem detStep_preserves (env : FsEnv) (st : DetectorState) (op : DetOp)
    (h p : String) (hset : regLookup st.registry h = some p) :
    regLookup (detStep env st op).registry h = some p := by
  cases op with
  | register q hv =>
    show regLookup (register_file env st q hv).2.registry h = some p
    cases hv <;>
    · simp only [register_file]
      split
      · rename_i hnone
        simp only
        rw [regLookup_regSet]
        split
        · rename_i heq; rw [heq] at hset; rw [hset] at hnone; cases hnone
        · exact hset
      · exact hset
  | check q =>
    show regLookup (check_and_register env st q).2.registry h = some p
    simp only [check_and_register]
    cases hl : regLookup st.registry (compute_hash env (env.resolve q)) with
    | some existing =>
      simp only
      split
      · exact hset
      · rename_i hne
        simp only [ne_eq, not_not] at hne
        simp only
        rw [regLookup_regSet]
        split
        · rename_i heq
          rw [heq] at hset
          rw [hset] at hl
          cases hl
          rw [hne]
        · exact hset
    | none =>
      simp only
      rw [regLookup_regSet]
      split
      · rename_i heq; rw [heq] at hset; rw [hset] at hl; cases hl
      · exact hset
  | isDup q => exact hset

/-- C10.  Over any sequence of `register_file`, `check_and_register` and
`is_duplicate` calls, a fingerprint-registry binding, once present, persists
unchanged (it keeps mapping to the resolved path first registered under that
hash); and a path whose resolved form is the registry's own entry for its
hash is never reported as a duplicate of itself, by either checking
operation. -/
theorem claim10_registry_invariants :
    (∀ (env : FsEnv) (st : DetectorState) (ops : List DetOp) (h p : String),
      regLookup st.registry h = some p →
      regLookup (detRun env st ops).registry h = some p) ∧
    (∀ (env : FsEnv) (st : DetectorState) (p : String),
      regLookup st.registry (compute_hash env (env.resolve p)) =
        some (env.resolve p) →
      is_duplicate env st p = (false, none) ∧
      (check_and_register env st p).1 = (false, none,
        compute_hash env (env.resolve p))) := by
  constructor
  · intro env st ops
    induction ops generalizing st with
    | nil => intro h p hset; exact hset
    | cons op rest ih =>
      intro h p hset
      exact ih (detStep env st op) h p (detStep_preserves env st op h p hset)
  · intro env st p hself
    constructor
    · unfold is_duplicate
      simp only [hself]
      rw [if_neg]
      simp
    · unfold check_and_register
      simp only [hself]
      rw [if_neg]
      simp

/-- C10 witness: the invariants applied to a concrete registry, operation
sequence and self-registered path. -/
theorem claim10_witness :
    regLookup (detRun ⟨id, fun _ => "h1"⟩ ⟨[("h1", "a")]⟩
      [.register "b" none, .check "c", .isDup "a"]).registry "h1" = some "a" ∧
    is_duplicate ⟨id, fun _ => "h1"⟩ ⟨[("h1", "a")]⟩ "a" = (false, none) :=
  ⟨claim10_registry_invariants.1 ⟨id, fun _ => "h1"⟩ ⟨[("h1", "a")]⟩
      [.register "b" none, .check "c", .isDup "a"] "h1" "a" (by decide),
   (claim10_registry_invariants.2 ⟨id, fun _ => "h1"⟩ ⟨[("h1", "a")]⟩ "a"
      (by decide)).1⟩

/-! ### Claim C6: datetime tag priority (corrected) -/

/-- Counterexample to C6 as stated: the first tag of `DATETIME_TAGS`,
`EXIF:DateTimeOriginal`, holds the non-empty, non-sentinel value
`"not a datetime"`, yet resolution returns the datetime and source tag of
the later `EXIF:CreateDate` — the first non-empty, non-sentinel field does
not win when its value fails to parse. -/
theorem claim6_counterexample :
    parse_datetime
      [("EXIF:DateTimeOriginal", "not a datetime"),
       ("EXIF:CreateDate", "2024:01:02 03:04:05")] =
      (some ⟨2024, 1, 2, 3, 4, 5⟩, some "EXIF:CreateDate") ∧
    getTag
      [("EXIF:DateTimeOriginal", "not a datetime"),
       ("EXIF:CreateDate", "2024:01:02 03:04:05")] "EXIF:DateTimeOriginal" =
      some "not a datetime" ∧
    DATETIME_TAGS.head? = some "EXIF:DateTimeOriginal" ∧
    ("not a datetime" : String) ≠ "" ∧
    ("not a datetime" : String) ≠ zeroSentinel ∧
    some "EXIF:CreateDate" ≠ some "EXIF:DateTimeOriginal" := by
  refine ⟨by decide, by decide, by decide, by decide, by decide, by decide⟩

/-- Tag loop: the first tag whose value parses determines the result. -/
theorem parseDatetimeAux_first_parseable (raw : RawMetadata) :
    ∀ (pre : List String) (tag : String) (post : List String) (dt : DateTime),
      (∀ t ∈ pre, tagParsedValue raw t = none) →
      tagParsedValue raw tag = some dt →
      parseDatetimeAux raw (pre ++ tag :: post) = (some dt, some tag) := by
  intro pre
  induction pre with
  | nil =>
    intro tag post dt _ htag
    unfold parseDatetimeAux
    simp only [List.nil_append, htag]
  | cons p pre ih =>
    intro tag post dt hpre htag
    have hp : tagParsedValue raw p = none := hpre p (by simp)
    unfold parseDatetimeAux
    simp only [List.cons_append, hp]
    exact ih tag post dt (fun t ht => hpre t (by simp [ht])) htag

/-- C6 amended.  Datetime resolution walks the priority-ordered tag list and
the first field whose value is usable — present, non-empty, not the zero
sentinel and parseable under one of the accepted layouts (`tagParsedValue`)
— wins: its parsed datetime is returned together with its tag name. -/
theorem claim6_first_usable_tag_wins (raw : RawMetadata) (pre : List String)
    (tag : String) (post : List String) (dt : DateTime)
    (horder : DATETIME_TAGS = pre ++ tag :: post)
    (hpre : ∀ t ∈ pre, tagParsedValue raw t = none)
    (htag : tagParsedValue raw tag = some dt) :
    parse_datetime raw = (some dt, some tag) := by
  unfold parse_datetime
  rw [horder]
  exact parseDatetimeAux_first_parseable raw pre tag post dt hpre htag

/-! ### Claim C2: provenance check before content hashing -/

/-- C2.  With duplicate-skipping enabled: a provenance hit (lookup by the
metadata original-filename identity, else the current filename) classifies
the file skipped-duplicate with the existing destination reported, and the
whole call performs no hash computation at all; when the provenance lookup
misses, the content-fingerprint check runs, and it is the first hashing the
call performs. -/
theorem claim2_provenance_before_hashing (cfg : OrganizerConfig) (env : OrgEnv)
    (st : OrgState) (filepath : String) (m : MediaMetadata)
    (hskip : cfg.skip_duplicates = true)
    (hm : env.read_metadata filepath = .ok m) :
    (∀ d, _is_already_processed st (pathName filepath) m = (true, some d) →
      (process_file cfg env st filepath).1.status = .skipped_duplicate ∧
      (process_file cfg env st filepath).1.destination_path = some d ∧
      (process_file cfg env st filepath).2.2 = []) ∧
    ((_is_already_processed st (pathName filepath) m).1 = false →
      ∃ rest, (process_file cfg env st filepath).2.2 =
        Effect.computeHash filepath :: rest) := by
  constructor
  · intro d hhit
    simp only [process_file, hm, dupCheckPhase, hskip, if_true, hhit]
    exact ⟨trivial, trivial, trivial⟩
  · intro hmiss
    rcases hpair : _is_already_processed st (pathName filepath) m with ⟨b, o⟩
    rw [hpair] at hmiss
    simp only at hmiss
    subst hmiss
    simp only [process_file, hm, dupCheckPhase, hskip, if_true, hpair]
    cases hh : env.hashAt (env.resolve (env.resolve filepath)) with
    | error e => exact ⟨[], rfl⟩
    | ok hv =>
      simp only
      cases hreg : regLookup st.fingerprints hv with
      | some existing =>
        simp only [hreg]
        by_cases hne : existing ≠ env.resolve filepath
        · rw [if_pos hne]
          exact ⟨[], rfl⟩
        · rw [if_neg hne]
          simp only
          repeat' split
          all_goals exact ⟨_, rfl⟩
      | none =>
        simp only [hreg]
        repeat' split
        all_goals exact ⟨_, rfl⟩

/-- C2 witness: the hit conjunct applied to a state whose provenance
registry already holds the file's current name, and the miss conjunct
applied to an empty registry. -/
theorem claim2_witness :
    ((process_file { cfgBase with skip_duplicates := true } envBase
      { stBase with processed := [("x.jpg", "dest/old/x.jpg")] }
      "src/x.jpg").1.status = .skipped_duplicate ∧
     (process_file { cfgBase with skip_duplicates := true } envBase
      { stBase with processed := [("x.jpg", "dest/old/x.jpg")] }
      "src/x.jpg").1.destination_path = some "dest/old/x.jpg" ∧
     (process_file { cfgBase with skip_duplicates := true } envBase
      { stBase with processed := [("x.jpg", "dest/old/x.jpg")] }
      "src/x.jpg").2.2 = []) ∧
    ∃ rest, (process_file { cfgBase with skip_duplicates := true } envBase
      stBase "src/x.jpg").2.2 = Effect.computeHash "src/x.jpg" :: rest :=
  ⟨(claim2_provenance_before_hashing { cfgBase with skip_duplicates := true }
      envBase { stBase with processed := [("x.jpg", "dest/old/x.jpg")] }
      "src/x.jpg" mdBase rfl rfl).1 "dest/old/x.jpg" (by decide),
   (claim2_provenance_before_hashing { cfgBase with skip_duplicates := true }
      envBase stBase "src/x.jpg" mdBase rfl rfl).2 (by decide)⟩

/-! ### Claim C9: per-file fault isolation -/

/-- An early result of the duplicate-check phase reports the processed file
as its source. -/
theorem dupCheckPhase_source (cfg : OrganizerConfig) (env : OrgEnv)
    (st : OrgState) (f name : String) (m : MediaMetadata)
    (r : ProcessingResult)
    (hr : (dupCheckPhase cfg env st f name m).1 = some r) :
    r.source_path = f := by
  unfold dupCheckPhase errResult at hr
  by_cases hsd : cfg.skip_duplicates
  · simp only [hsd, if_true] at hr
    rcases h1 : _is_already_processed st name m with ⟨b, o⟩
    rw [h1] at hr
    cases b with
    | true =>
      simp only at hr
      injection hr with hr2
      subst hr2
      rfl
    | false =>
      cases hh : env.hashAt (env.resolve (env.resolve f)) with
      | error e =>
        rw [hh] at hr
        simp only at hr
        injection hr with hr2
        subst hr2
        rfl
      | ok hv =>
        rw [hh] at hr
        simp only at hr
        cases hreg : regLookup st.fingerprints hv with
        | some existing =>
          rw [hreg] at hr
          simp only at hr
          split at hr
          · injection hr with hr2
            subst hr2
            rfl
          · cases hr
        | none =>
          rw [hreg] at hr
          simp only at hr
          cases hr
  · simp only [hsd, if_false] at hr
    cases hr

/-- Every branch of `process_file` reports the processed file as its
source. -/
theorem process_file_source (cfg : OrganizerConfig) (env : OrgEnv)
    (st : OrgState) (f : String) :
    (process_file cfg env st f).1.source_path = f := by
  cases hmr : env.read_metadata f with
  | error e => simp [process_file, hmr, errResult]
  | ok m =>
    simp only [process_file, hmr]
    rcases hdp : dupCheckPhase cfg env st f (pathName f) m with ⟨ro, st1, effs1⟩
    cases ro with
    | some r =>
      simp only [hdp]
      exact dupCheckPhase_source cfg env st f (pathName f) m r (by rw [hdp])
    | none =>
      simp only [hdp]
      repeat' split
      all_goals
        first
          | rfl
          | (rename_i heqc
             repeat' split at heqc
             all_goals
               first
                 | (injection heqc with h2
                    injection h2 with h3 h4
                    subst h3
                    rfl)
                 | cases heqc)

/-- C9.  Each file of a run receives exactly one outcome, in order (the
results' sources are exactly the input list); a metadata-read fault on a
file yields the error outcome carrying the exception message and leaves the
run state untouched, so the remaining files are processed exactly as if the
faulting file had been last; and a hashing fault inside the duplicate check
likewise yields the error outcome with the captured message. -/
theorem claim9_fault_isolation :
    (∀ (cfg : OrganizerConfig) (env : OrgEnv) (st : OrgState)
        (files : List String),
      (runFiles cfg env st files).1.map (·.source_path) = files) ∧
    (∀ (cfg : OrganizerConfig) (env : OrgEnv) (st : OrgState)
        (f : String) (rest : List String) (e : String),
      env.read_metadata f = .error e →
      runFiles cfg env st (f :: rest) =
        (errResult f ("Error: " ++ e) :: (runFiles cfg env st rest).1,
          (runFiles cfg env st rest).2)) ∧
    (∀ (cfg : OrganizerConfig) (env : OrgEnv) (st : OrgState)
        (f e : String) (m : MediaMetadata),
      cfg.skip_duplicates = true →
      env.read_metadata f = .ok m →
      (_is_already_processed st (pathName f) m).1 = false →
      env.hashAt (env.resolve (env.resolve f)) = .error e →
      (process_file cfg env st f).1.status = .error ∧
      (process_file cfg env st f).1.message = "Error: " ++ e) := by
  refine ⟨?_, ?_, ?_⟩
  · intro cfg env st files
    induction files generalizing st with
    | nil => rfl
    | cons f rest ih =>
      simp only [runFiles, List.map, List.cons.injEq]
      exact ⟨process_file_source cfg env st f, ih _⟩
  · intro cfg env st f rest e herr
    simp only [runFiles, process_file, herr]
  · intro cfg env st f e m hskip hm hmiss hh
    rcases hpair : _is_already_processed st (pathName f) m with ⟨b, o⟩
    rw [hpair] at hmiss
    simp only at hmiss
    subst hmiss
    simp [process_file, hm, dupCheckPhase, hskip, hpair, hh, errResult]

/-- C9 witness: the run-shape conjunct and the metadata-fault conjunct
applied to a concrete two-file run whose metadata reads fault. -/
theorem claim9_witness :
    (runFiles cfgBase envErr stBase ["src/a.jpg", "src/b.jpg"]).1.map
      (·.source_path) = ["src/a.jpg", "src/b.jpg"] ∧
    runFiles cfgBase envErr stBase ["src/a.jpg", "src/b.jpg"] =
      (errResult "src/a.jpg" ("Error: " ++ "boom") ::
        (runFiles cfgBase envErr stBase ["src/b.jpg"]).1,
        (runFiles cfgBase envErr stBase ["src/b.jpg"]).2) ∧
    (process_file { cfgBase with skip_duplicates := true } envHashErr stBase
      "src/x.jpg").1.status = .error ∧
    (process_file { cfgBase with skip_duplicates := true } envHashErr stBase
      "src/x.jpg").1.message = "Error: " ++ "unreadable" :=
  ⟨claim9_fault_isolation.1 cfgBase envErr stBase ["src/a.jpg", "src/b.jpg"],
   claim9_fault_isolation.2.1 cfgBase envErr stBase "src/a.jpg" ["src/b.jpg"]
     "boom" rfl,
   claim9_fault_isolation.2.2 { cfgBase with skip_duplicates := true }
     envHashErr stBase "src/x.jpg" "unreadable" mdBase rfl rfl (by decide) rfl⟩

/-! ### Decimal rendering and collision-candidate lemmas -/

theorem digitVal_digitChar (d : Nat) (h : d < 10) : digitVal (digitChar d) = some d := by
  interval_cases d <;> decide

theorem strNatAux_append (xs : Chars) (c : Char) :
    strNatAux (xs ++ [c]) = strNatAux xs * 10 + (digitVal c).getD 0 := by
  unfold strNatAux
  rw [List.foldl_append]
  rfl

theorem strNatAux_natStrAux : ∀ (fuel n : Nat), n ≤ fuel →
    strNatAux (natStrAux fuel n) = n := by
  intro fuel
  induction fuel with
  | zero =>
    intro n h
    interval_cases n
    rfl
  | succ fuel ih =>
    intro n h
    by_cases h0 : n = 0
    · subst h0; rfl
    · unfold natStrAux
      rw [if_neg h0, strNatAux_append]
      have hdiv : n / 10 < n := Nat.div_lt_self (Nat.pos_of_ne_zero h0) (by norm_num)
      rw [ih (n / 10) (by omega), digitVal_digitChar (n % 10) (Nat.mod_lt _ (by norm_num))]
      simp only [Option.getD_some]
      omega

theorem strNatAux_natStr (n : Nat) : strNatAux (natStr n).data = n := by
  unfold natStr
  split
  · rename_i h; subst h; rfl
  · exact strNatAux_natStrAux (n + 1) n (by omega)

theorem natStr_data_inj {a b : Nat} (h : (natStr a).data = (natStr b).data) :
    a = b := by
  have ha := strNatAux_natStr a
  have hb := strNatAux_natStr b
  rw [h] at ha
  rw [← ha, hb]

/-- Distinct counters yield distinct candidate paths. -/
theorem candidate_inj (base : String) {j k : Nat}
    (h : candidate base j = candidate base k) : j = k := by
  unfold candidate at h
  have h2 := congrArg String.data h
  simp only [String.data_append] at h2
  exact natStr_data_inj (List.append_cancel_left (List.append_cancel_right h2))

/-- Pigeonhole: among the first `occ.length + 1` candidates, one is free. -/
theorem exists_free_candidate (occ : List String) (base : String) :
    ∃ m, m ≤ occ.length ∧ candidate base (1 + m) ∉ occ := by
  by_contra hcon
  push_neg at hcon
  have hnd : ((List.range (occ.length + 1)).map
      (fun m => candidate base (1 + m))).Nodup := by
    refine List.Nodup.map ?_ (List.nodup_range _)
    intro a b hab
    have := candidate_inj base hab
    omega
  have hsub : ((List.range (occ.length + 1)).map
      (fun m => candidate base (1 + m))).toFinset ⊆ occ.toFinset := by
    intro x hx
    rw [List.mem_toFinset] at hx ⊢
    rw [List.mem_map] at hx
    obtain ⟨m, hm, rfl⟩ := hx
    rw [List.mem_range] at hm
    exact hcon m (by omega)
  have h1 := List.toFinset_card_of_nodup hnd
  have h3 := Finset.card_le_card hsub
  have h4 := List.toFinset_card_le occ
  simp only [List.length_map, List.length_range] at h1
  omega

/-- Loop correctness: if a free candidate exists within the fuel window, the
loop stops at the first free candidate at or after the start counter. -/
theorem resolveCollisionAux_spec (occ : List String) (base : String) :
    ∀ (fuel k : Nat), (∃ m, m ≤ fuel ∧ candidate base (k + m) ∉ occ) →
    ∃ j, k ≤ j ∧ resolveCollisionAux occ base k fuel = candidate base j ∧
      candidate base j ∉ occ ∧ ∀ i, k ≤ i → i < j → candidate base i ∈ occ := by
  intro fuel
  induction fuel with
  | zero =>
    intro k ⟨m, hm, hfree⟩
    interval_cases m
    exact ⟨k, le_refl k, rfl, by simpa using hfree, by omega⟩
  | succ fuel ih =>
    intro k ⟨m, hm, hfree⟩
    by_cases hmem : candidate base k ∈ occ
    · have hm0 : m ≠ 0 := by
        intro h0
        subst h0
        simp only [Nat.add_zero] at hfree
        exact hfree hmem
      have hnext : ∃ m2, m2 ≤ fuel ∧ candidate base (k + 1 + m2) ∉ occ := by
        refine ⟨m - 1, by omega, ?_⟩
        have : k + 1 + (m - 1) = k + m := by omega
        rw [this]
        exact hfree
      obtain ⟨j, hj1, hj2, hj3, hj4⟩ := ih (k + 1) hnext
      refine ⟨j, by omega, ?_, hj3, ?_⟩
      · unfold resolveCollisionAux
        rw [if_pos hmem]
        exact hj2
      · intro i hi1 hi2
        rcases Nat.eq_or_lt_of_le hi1 with heq | hlt
        · rw [← heq]; exact hmem
        · exact hj4 i hlt hi2
    · refine ⟨k, le_refl k, ?_, hmem, by omega⟩
      unfold resolveCollisionAux
      rw [if_neg hmem]

/-- The collision loop always terminates at the first free candidate, which
in particular is not an existing path. -/
theorem resolveCollision_spec (occ : List String) (base : String) :
    ∃ j, 1 ≤ j ∧ resolveCollision occ base = candidate base j ∧
      candidate base j ∉ occ ∧ ∀ i, 1 ≤ i → i < j → candidate base i ∈ occ := by
  obtain ⟨m, hm, hfree⟩ := exists_free_candidate occ base
  exact resolveCollisionAux_spec occ base (occ.length + 1) 1 ⟨m, by omega, hfree⟩

/-! ### Phase lemmas for the organizer pipeline -/

/-- The duplicate-check phase changes neither the filesystem nor the
provenance registry. -/
theorem dupCheckPhase_state (cfg : OrganizerConfig) (env : OrgEnv)
    (st : OrgState) (f n : String) (m : MediaMetadata) :
    (dupCheckPhase cfg env st f n m).2.1.fsPaths = st.fsPaths ∧
    (dupCheckPhase cfg env st f n m).2.1.processed = st.processed := by
  by_cases hsd : cfg.skip_duplicates
  · rcases h1 : _is_already_processed st n m with ⟨b, o⟩
    cases b with
    | true => simp [dupCheckPhase, hsd, h1]
    | false =>
      cases hh : env.hashAt (env.resolve (env.resolve f)) with
      | error e => simp [dupCheckPhase, hsd, h1, hh]
      | ok hv =>
        cases hreg : regLookup st.fingerprints hv with
        | some existing =>
          by_cases hne : existing = env.resolve f
          · simp [dupCheckPhase, hsd, h1, hh, hreg, hne]
          · simp [dupCheckPhase, hsd, h1, hh, hreg, hne]
        | none => simp [dupCheckPhase, hsd, h1, hh, hreg]
  · simp [dupCheckPhase, hsd]

/-- The duplicate-check phase only hashes; it never mutates a file. -/
theorem dupCheckPhase_effects (cfg : OrganizerConfig) (env : OrgEnv)
    (st : OrgState) (f n : String) (m : MediaMetadata) :
    ∀ e ∈ (dupCheckPhase cfg env st f n m).2.2, e.isMutating = false := by
  intro e he
  by_cases hsd : cfg.skip_duplicates
  · rcases h1 : _is_already_processed st n m with ⟨b, o⟩
    cases b with
    | true => simp [dupCheckPhase, hsd, h1] at he
    | false =>
      cases hh : env.hashAt (env.resolve (env.resolve f)) with
      | error e2 =>
        simp [dupCheckPhase, hsd, h1, hh] at he
        simp [he, Effect.isMutating]
      | ok hv =>
        cases hreg : regLookup st.fingerprints hv with
        | some existing =>
          by_cases hne : existing = env.resolve f
          · simp [dupCheckPhase, hsd, h1, hh, hreg, hne] at he
            simp [he, Effect.isMutating]
          · simp [dupCheckPhase, hsd, h1, hh, hreg, hne] at he
            simp [he, Effect.isMutating]
        | none =>
          simp [dupCheckPhase, hsd, h1, hh, hreg] at he
          simp [he, Effect.isMutating]
  · simp [dupCheckPhase, hsd] at he

/-- WhatsApp datetime handling only prompts; it never mutates a file. -/
theorem handleWhatsapp_effects (cfg : OrganizerConfig) (env : OrgEnv)
    (f : String) (w : WhatsAppDateTime) :
    ∀ e ∈ (_handle_whatsapp_datetime cfg env f w).2, e.isMutating = false := by
  intro e he
  unfold _handle_whatsapp_datetime at he
  repeat' split at he
  all_goals simp_all [Effect.isMutating]

/-- The datetime phase only prompts; it never mutates a file. -/
theorem datetimePhase_effects (cfg : OrganizerConfig) (env : OrgEnv)
    (f n : String) (m : MediaMetadata) :
    ∀ e ∈ (datetimePhase cfg env f n m).2, e.isMutating = false := by
  intro e he
  unfold datetimePhase at he
  cases hmd : m.datetime_original with
  | some dt => rw [hmd] at he; simp at he
  | none =>
    rw [hmd] at he
    cases hwa : whatsappLookup n m with
    | some w =>
      rw [hwa] at he
      exact handleWhatsapp_effects cfg env f w e he
    | none => rw [hwa] at he; simp at he

/-- The location phase only prompts; it never mutates a file. -/
theorem locationPhase_effects (cfg : OrganizerConfig) (env : OrgEnv)
    (f : String) (m : MediaMetadata) :
    ∀ e ∈ (locationPhase cfg env f m).2, e.isMutating = false := by
  intro e he
  unfold locationPhase at he
  repeat' split at he
  all_goals simp_all [Effect.isMutating]

/-! ### Claim C8: existing-destination handling and collision resolution -/

/-- C8.  In a real (non-preview) run reaching the destination step with a
destination that already exists: identical content hashes classify the file
skipped-duplicate reporting the existing destination, with no mutating step
performed; differing hashes divert the file to `resolveCollision`, whose
result is `stem_j.suffix` for the first counter `j ≥ 1` whose candidate is
free — every earlier candidate being occupied — so no existing file is ever
overwritten; concretely, a second distinct-content collider on `a.jpg` gets
`a_1.jpg` and a third gets `a_2.jpg`. -/
theorem claim8_destination_collision :
    (∀ (cfg : OrganizerConfig) (env : OrgEnv) (st : OrgState)
        (filepath : String) (m : MediaMetadata) (dt : DateTime)
        (lset : Option Loc) (dest0 hdst hsrc : String),
      cfg.dry_run = false →
      env.read_metadata filepath = .ok m →
      (dupCheckPhase cfg env st filepath (pathName filepath) m).1 = none →
      (datetimePhase cfg env filepath (pathName filepath) m).1.1 = some dt →
      (locationPhase cfg env filepath m).1 = some lset →
      _get_destination_path cfg.destination cfg.folder_pattern
        cfg.filename_pattern dt (_handle_original_filename (pathName filepath) m).1
        (pathSuffix filepath) = some dest0 →
      dest0 ∈ st.fsPaths →
      env.hashAt (env.resolve dest0) = .ok hdst →
      env.hashAt (env.resolve filepath) = .ok hsrc →
      ((hdst = hsrc →
        (process_file cfg env st filepath).1.status = .skipped_duplicate ∧
        (process_file cfg env st filepath).1.destination_path = some dest0 ∧
        ∀ e ∈ (process_file cfg env st filepath).2.2, e.isMutating = false) ∧
       (hdst ≠ hsrc →
        (if cfg.move_files then
          env.move_ok filepath (resolveCollision st.fsPaths dest0)
         else env.copy_ok filepath (resolveCollision st.fsPaths dest0)) =
          .ok true →
        (process_file cfg env st filepath).1.status = .success ∧
        (process_file cfg env st filepath).1.destination_path =
          some (resolveCollision st.fsPaths dest0) ∧
        resolveCollision st.fsPaths dest0 ∉ st.fsPaths))) ∧
    (∀ (occ : List String) (base : String),
      ∃ j, 1 ≤ j ∧ resolveCollision occ base = candidate base j ∧
        candidate base j ∉ occ ∧ ∀ i, 1 ≤ i → i < j → candidate base i ∈ occ) ∧
    candidate "dest/2024/a.jpg" 1 = "dest/2024/a_1.jpg" ∧
    resolveCollision ["dest/2024/a.jpg"] "dest/2024/a.jpg" = "dest/2024/a_1.jpg" ∧
    resolveCollision ["dest/2024/a.jpg", "dest/2024/a_1.jpg"] "dest/2024/a.jpg" =
      "dest/2024/a_2.jpg" := by
  refine ⟨?_, resolveCollision_spec, by decide, by decide, by decide⟩
  intro cfg env st filepath m dt lset dest0 hdst hsrc hdry hmr hdp1 hdt1 hl1
    hgd hex hh1 hh2
  rcases hdp3 : dupCheckPhase cfg env st filepath (pathName filepath) m with
    ⟨ro, st1, effs1⟩
  rw [hdp3] at hdp1
  simp only at hdp1
  subst hdp1
  have hfs : st1.fsPaths = st.fsPaths := by
    have := (dupCheckPhase_state cfg env st filepath (pathName filepath) m).1
    rw [hdp3] at this
    exact this
  have heffs1 : ∀ e ∈ effs1, e.isMutating = false := by
    have := dupCheckPhase_effects cfg env st filepath (pathName filepath) m
    rw [hdp3] at this
    exact this
  rcases hdt3 : datetimePhase cfg env filepath (pathName filepath) m with
    ⟨⟨dtO, dsrc, dinf⟩, effs2⟩
  rw [hdt3] at hdt1
  simp only at hdt1
  subst hdt1
  have heffs2 : ∀ e ∈ effs2, e.isMutating = false := by
    have := datetimePhase_effects cfg env filepath (pathName filepath) m
    rw [hdt3] at this
    exact this
  rcases hl3 : locationPhase cfg env filepath m with ⟨lo, effs3⟩
  rw [hl3] at hl1
  simp only at hl1
  subst hl1
  have heffs3 : ∀ e ∈ effs3, e.isMutating = false := by
    have := locationPhase_effects cfg env filepath m
    rw [hl3] at this
    exact this
  simp only [process_file, hmr, hdp3, hdt3, hl3, hgd]
  rw [if_pos (show dest0 ∈ st1.fsPaths ∧ ¬cfg.dry_run = true by
    exact ⟨by rw [hfs]; exact hex, by simp [hdry]⟩)]
  simp only [hh1, hh2]
  constructor
  · intro heq
    rw [if_pos heq]
    refine ⟨rfl, rfl, ?_⟩
    intro e he
    simp only [List.mem_append, List.mem_cons, List.mem_singleton] at he
    rcases he with ((he | he) | he) | he | he | he
    · exact heffs1 e he
    · exact heffs2 e he
    · exact heffs3 e he
    · subst he; rfl
    · subst he; rfl
    · cases he
  · intro hne hop
    rw [if_neg hne]
    simp only [hfs, hdry]
    rw [if_neg (by simp)]
    rw [hop]
    refine ⟨rfl, rfl, ?_⟩
    obtain ⟨j, _, hj2, hj3, _⟩ := resolveCollision_spec st.fsPaths dest0
    rw [hj2]
    exact hj3

/-- C8 witness: the process-level conjunct applied to a concrete run whose
destination exists with identical content (first implication) — the
resolveCollision conjunct is then applied to the concrete a.jpg scenario. -/
theorem claim8_witness :
    ((process_file cfgBase envBase stBase "src/x.jpg").1.status =
      PStatus.skipped_duplicate ∧
     (process_file cfgBase envBase stBase "src/x.jpg").1.destination_path =
      some "dest/f/g.jpg") ∧
    ((process_file cfgBase envTwoHashes stBase "src/x.jpg").1.status =
      PStatus.success ∧
     (process_file cfgBase envTwoHashes stBase "src/x.jpg").1.destination_path =
      some (resolveCollision stBase.fsPaths "dest/f/g.jpg")) ∧
    resolveCollision ["dest/2024/a.jpg"] "dest/2024/a.jpg" ∉
      (["dest/2024/a.jpg"] : List String) := by
  have h := (claim8_destination_collision.1 cfgBase envBase stBase "src/x.jpg"
    mdBase ⟨2024, 1, 2, 3, 4, 5⟩ none "dest/f/g.jpg" "h" "h" rfl rfl (by decide)
    (by decide) (by decide) (by decide) (by decide) rfl rfl).1 rfl
  have h2 := (claim8_destination_collision.1 cfgBase envTwoHashes stBase
    "src/x.jpg" mdBase ⟨2024, 1, 2, 3, 4, 5⟩ none "dest/f/g.jpg" "h1" "h2" rfl
    rfl (by decide) (by decide) (by decide) (by decide) (by decide) rfl
    rfl).2 (by decide) rfl
  refine ⟨⟨h.1, h.2.1⟩, ⟨h2.1, h2.2.1⟩, ?_⟩
  obtain ⟨j, _, hj2, hj3, _⟩ :=
    claim8_destination_collision.2.1 ["dest/2024/a.jpg"] "dest/2024/a.jpg"
  rw [hj2]
  exact hj3

/-! ### Claim C1: dry-run preview vs real run (corrected) -/

/-- The value part of the datetime phase does not depend on the
configuration when the time prompt would be declined (the prompt is the only
configuration-sensitive step of the phase). -/
theorem datetimePhase_fst_eq (cfg cfg2 : OrganizerConfig) (env : OrgEnv)
    (filepath name : String) (m : MediaMetadata)
    (h1 : env.prompt_time filepath = none) :
    (datetimePhase cfg env filepath name m).1 =
      (datetimePhase cfg2 env filepath name m).1 := by
  unfold datetimePhase _handle_whatsapp_datetime
  cases hmd : m.datetime_original with
  | some dt => simp [hmd]
  | none =>
    simp only [hmd]
    cases hwa : whatsappLookup name m with
    | none => simp
    | some w =>
      simp only
      cases hwt : w.time_value with
      | some t => simp
      | none =>
        simp only
        cases hfm : env.find_matching_date filepath with
        | some pr => simp
        | none =>
          simp only
          by_cases hd : cfg.dry_run <;> by_cases hd2 : cfg2.dry_run <;>
            simp [hd, hd2, h1]

/-- The location phase terminates the file only through a declined prompt:
in a dry run, or when the prompt would be answered, it never returns
`none`. -/
theorem locationPhase_fst_ne_none (cfg : OrganizerConfig) (env : OrgEnv)
    (f : String) (m : MediaMetadata)
    (h : cfg.dry_run = true ∨ (env.prompt_location f).isSome = true) :
    (locationPhase cfg env f m).1 ≠ none := by
  unfold locationPhase
  by_cases hloc : m.has_location
  · simp [hloc]
  · simp only [hloc, Bool.false_eq_true, not_false_eq_true, if_true]
    cases hdl : cfg.default_location with
    | some l => simp
    | none =>
      simp only
      by_cases hsl : cfg.skip_location
      · simp [hsl]
      · simp only [hsl, Bool.false_eq_true, not_false_eq_true, if_true]
        by_cases hd : cfg.dry_run
        · simp [hd]
        · simp only [hd, Bool.false_eq_true, not_false_eq_true, if_true]
          cases hpl : env.prompt_location f with
          | some l => simp
          | none =>
            rcases h with hd2 | hp
            · rw [hd2] at hd; cases hd rfl
            · rw [hpl] at hp; cases hp

/-- A dry run performs no mutating step: every effect it emits is a hash
computation or a prompt. -/
theorem process_file_dry_no_mutation (cfg : OrganizerConfig) (env : OrgEnv)
    (st : OrgState) (filepath : String) (hdry : cfg.dry_run = true) :
    ∀ e ∈ (process_file cfg env st filepath).2.2, e.isMutating = false := by
  intro e he
  cases hmr : env.read_metadata filepath with
  | error e2 => simp [process_file, hmr] at he
  | ok m =>
    rcases hdp : dupCheckPhase cfg env st filepath (pathName filepath) m with
      ⟨ro, st1, effs1⟩
    have heffs1 : ∀ x ∈ effs1, x.isMutating = false := by
      have := dupCheckPhase_effects cfg env st filepath (pathName filepath) m
      rw [hdp] at this
      exact this
    simp only [process_file, hmr, hdp] at he
    cases ro with
    | some r => exact heffs1 e he
    | none =>
      rcases hdt : datetimePhase cfg env filepath (pathName filepath) m with
        ⟨⟨dtO, dsrc, dinf⟩, effs2⟩
      have heffs2 : ∀ x ∈ effs2, x.isMutating = false := by
        have := datetimePhase_effects cfg env filepath (pathName filepath) m
        rw [hdt] at this
        exact this
      simp only [hdt] at he
      cases dtO with
      | none =>
        simp only [List.mem_append] at he
        rcases he with he | he
        · exact heffs1 e he
        · exact heffs2 e he
      | some dt =>
        rcases hl : locationPhase cfg env filepath m with ⟨lo, effs3⟩
        have heffs3 : ∀ x ∈ effs3, x.isMutating = false := by
          have := locationPhase_effects cfg env filepath m
          rw [hl] at this
          exact this
        simp only [hl] at he
        cases lo with
        | none =>
          simp only [List.mem_append] at he
          rcases he with (he | he) | he
          · exact heffs1 e he
          · exact heffs2 e he
          · exact heffs3 e he
        | some lset =>
          cases hgd : _get_destination_path cfg.destination cfg.folder_pattern
              cfg.filename_pattern dt
              (_handle_original_filename (pathName filepath) m).1
              (pathSuffix filepath) with
          | none =>
            simp only [hgd] at he
            simp only [List.mem_append] at he
            rcases he with (he | he) | he
            · exact heffs1 e he
            · exact heffs2 e he
            · exact heffs3 e he
          | some dest0 =>
            simp only [hgd] at he
            rw [if_neg (by simp [hdry])] at he
            simp only [hdry, if_true] at he
            simp only [List.mem_append, List.append_nil] at he
            rcases he with (he | he) | he
            · exact heffs1 e he
            · exact heffs2 e he
            · exact heffs3 e he

/-- Counterexample to C1 as stated: same configuration (up to the preview
flag), same environment and same file state — the computed destination
already exists holding identical content — yet the real run classifies the
file skipped-duplicate while the preview classifies it imported. -/
theorem claim1_counterexample :
    (process_file cfgBase envBase stBase "src/x.jpg").1.status =
      PStatus.skipped_duplicate ∧
    (process_file { cfgBase with dry_run := true } envBase stBase
      "src/x.jpg").1.status = PStatus.success ∧
    cfgBase.dry_run = false ∧
    "dest/f/g.jpg" ∈ stBase.fsPaths ∧
    plannedDest cfgBase envBase "src/x.jpg" = some "dest/f/g.jpg" := by
  refine ⟨by decide, by decide, by decide, by decide, by decide⟩

/-- C1 amended.  A dry run performs no mutating step, unconditionally; and
it yields the same terminal classification as the real run provided the
computed destination path does not already exist in the file state, the
WhatsApp time prompt of the real run would be declined, the location prompt
would be answered, and the file operation succeeds.  (When the destination
already exists with identical content, the real run classifies
skipped-duplicate while the preview classifies imported — see the
counterexample.) -/
theorem claim1_preview_equivalence (cfg : OrganizerConfig) (env : OrgEnv)
    (st : OrgState) (filepath : String)
    (h1 : env.prompt_time filepath = none)
    (h2 : (env.prompt_location filepath).isSome = true)
    (h3 : ∀ d, plannedDest { cfg with dry_run := false } env filepath = some d →
      d ∉ st.fsPaths)
    (h4 : ∀ d, plannedDest { cfg with dry_run := false } env filepath = some d →
      (if cfg.move_files then env.move_ok filepath d
       else env.copy_ok filepath d) = Except.ok true) :
    (process_file { cfg with dry_run := false } env st filepath).1.status =
      (process_file { cfg with dry_run := true } env st filepath).1.status ∧
    ∀ e ∈ (process_file { cfg with dry_run := true } env st filepath).2.2,
      e.isMutating = false := by
  refine ⟨?_, process_file_dry_no_mutation _ env st filepath rfl⟩
  cases hmr : env.read_metadata filepath with
  | error e => simp [process_file, hmr]
  | ok m =>
    rcases hdp : dupCheckPhase { cfg with dry_run := false } env st filepath
      (pathName filepath) m with ⟨ro, st1, effs1⟩
    have hdpD : dupCheckPhase { cfg with dry_run := true } env st filepath
        (pathName filepath) m = (ro, st1, effs1) := hdp
    simp only [process_file, hmr, hdp, hdpD]
    cases ro with
    | some r => rfl
    | none =>
      have hdt := datetimePhase_fst_eq { cfg with dry_run := false }
        { cfg with dry_run := true } env filepath (pathName filepath) m h1
      rcases hdtR : datetimePhase { cfg with dry_run := false } env filepath
        (pathName filepath) m with ⟨⟨dtO, dsrc, dinf⟩, effs2R⟩
      rcases hdtD : datetimePhase { cfg with dry_run := true } env filepath
        (pathName filepath) m with ⟨⟨dtOD, dsrcD, dinfD⟩, effs2D⟩
      rw [hdtR, hdtD] at hdt
      simp only [Prod.mk.injEq] at hdt
      obtain ⟨hdt1, hdt2, hdt3⟩ := hdt
      subst hdt1
      subst hdt2
      subst hdt3
      cases dtO with
      | none => rfl
      | some dt =>
        rcases hlR : locationPhase { cfg with dry_run := false } env filepath m
          with ⟨loR, effs3R⟩
        rcases hlD : locationPhase { cfg with dry_run := true } env filepath m
          with ⟨loD, effs3D⟩
        cases loR with
        | none =>
          exfalso
          have := locationPhase_fst_ne_none { cfg with dry_run := false } env
            filepath m (Or.inr h2)
          rw [hlR] at this
          exact this rfl
        | some lsetR =>
          cases loD with
          | none =>
            exfalso
            have := locationPhase_fst_ne_none { cfg with dry_run := true } env
              filepath m (Or.inl rfl)
            rw [hlD] at this
            exact this rfl
          | some lsetD =>
            dsimp only
            cases hgd : _get_destination_path cfg.destination cfg.folder_pattern
                cfg.filename_pattern dt
                (_handle_original_filename (pathName filepath) m).1
                (pathSuffix filepath) with
            | none => rfl
            | some dest0 =>
              have hpd : plannedDest { cfg with dry_run := false } env filepath =
                  some dest0 := by
                unfold plannedDest
                simp only [hmr, hdtR]
                exact hgd
              have hnotex : dest0 ∉ st.fsPaths := h3 dest0 hpd
              have hop := h4 dest0 hpd
              have hfs : st1.fsPaths = st.fsPaths := by
                have := (dupCheckPhase_state { cfg with dry_run := false } env st
                  filepath (pathName filepath) m).1
                rw [hdp] at this
                exact this
              have hnotex1 : dest0 ∉ st1.fsPaths := by rw [hfs]; exact hnotex
              simp [hnotex1, hop]

/-- C1 witness: the amended theorem applied to a concrete run with a free
destination and an answered location prompt — both modes classify the file
imported, and the dry run's effect trace holds no mutating step. -/
theorem claim1_witness :
    (process_file { cfgBase with dry_run := false } envLoc stEmpty
      "src/x.jpg").1.status =
      (process_file { cfgBase with dry_run := true } envLoc stEmpty
        "src/x.jpg").1.status ∧
    ∀ e ∈ (process_file { cfgBase with dry_run := true } envLoc stEmpty
      "src/x.jpg").2.2, e.isMutating = false := by
  refine claim1_preview_equivalence cfgBase envLoc stEmpty "src/x.jpg" rfl rfl
    ?_ ?_
  · intro d hd
    have h0 : plannedDest { cfgBase with dry_run := false } envLoc "src/x.jpg" =
        some "dest/f/g.jpg" := by decide
    rw [h0] at hd
    cases hd
    decide
  · intro d hd
    have h0 : plannedDest { cfgBase with dry_run := false } envLoc "src/x.jpg" =
        some "dest/f/g.jpg" := by decide
    rw [h0] at hd
    cases hd
    rfl

/-! ### Claim C7: pattern rendering -/

/-- The substitution scanner walks over a brace-free prefix unchanged. -/
theorem subKeyAux_walk (key : Chars) (fv : FmtVal) :
    ∀ (xs ys : Chars) (F : Nat), (∀ c ∈ xs, c ≠ '{') →
    subKeyAux key fv (xs.length + F) (xs ++ ys) =
      (subKeyAux key fv F ys).map (xs ++ ·) := by
  intro xs
  induction xs with
  | nil =>
    intro ys F h
    simp only [List.length_nil, Nat.zero_add, List.nil_append]
    cases subKeyAux key fv F ys <;> simp
  | cons c xs ih =>
    intro ys F h
    have hc : c ≠ '{' := h c (by simp)
    have hfuel : (c :: xs).length + F = (xs.length + F) + 1 := by
      simp only [List.length_cons]
      omega
    rw [hfuel]
    show subKeyAux key fv (xs.length + F + 1) (c :: (xs ++ ys)) = _
    simp only [subKeyAux]
    rw [if_neg hc]
    rw [ih ys F (fun c2 h2 => h c2 (by simp [h2]))]
    cases subKeyAux key fv F ys <;> simp

/-- Scanner pass over a brace-free prefix, at the `subKey` level. -/
theorem subKey_walk2 (key : Chars) (fv : FmtVal) (xs ys : Chars)
    (h : ∀ c ∈ xs, c ≠ '{') :
    subKey key fv (xs ++ ys) = (subKey key fv ys).map (xs ++ ·) := by
  unfold subKey
  rw [List.length_append]
  exact subKeyAux_walk key fv xs ys ys.length h

/-- Scanner step over one non-brace character. -/
theorem subKey_cons (key : Chars) (fv : FmtVal) (c : Char) (zs : Chars)
    (hc : c ≠ '{') :
    subKey key fv (c :: zs) = (subKey key fv zs).map (c :: ·) := by
  unfold subKey
  simp only [List.length_cons, subKeyAux]
  rw [if_neg hc]

/-- The scanner leaves a fully brace-free text unchanged. -/
theorem subKeyAux_id (key : Chars) (fv : FmtVal) :
    ∀ (zs : Chars) (fuel : Nat), zs.length ≤ fuel → (∀ c ∈ zs, c ≠ '{') →
    subKeyAux key fv fuel zs = some zs := by
  intro zs
  induction zs with
  | nil => intro fuel _ _; cases fuel <;> rfl
  | cons c zs ih =>
    intro fuel hlen h
    cases fuel with
    | zero => simp at hlen
    | succ fuel =>
      simp only [subKeyAux]
      rw [if_neg (h c (by simp))]
      rw [ih fuel (by simp at hlen; omega) (fun c2 h2 => h c2 (by simp [h2]))]
      rfl

theorem subKey_id (key : Chars) (fv : FmtVal) (zs : Chars)
    (h : ∀ c ∈ zs, c ≠ '{') : subKey key fv zs = some zs :=
  subKeyAux_id key fv zs zs.length (le_refl _) h

/-- Decimal renderings contain only digit characters, never a brace. -/
theorem natStrAux_no_brace : ∀ (fuel n : Nat) (c : Char),
    c ∈ natStrAux fuel n → c ≠ '{' := by
  intro fuel
  induction fuel with
  | zero => intro n c hc; cases hc
  | succ fuel ih =>
    intro n c hc
    unfold natStrAux at hc
    split at hc
    · cases hc
    · rw [List.mem_append] at hc
      rcases hc with hc | hc
      · exact ih _ c hc
      · rw [List.mem_singleton] at hc
        subst hc
        have : n % 10 < 10 := Nat.mod_lt _ (by norm_num)
        set d := n % 10
        interval_cases d <;> decide

theorem natStr_no_brace (n : Nat) : ∀ c ∈ (natStr n).data, c ≠ '{' := by
  intro c hc
  unfold natStr at hc
  split at hc
  · rw [show ("0" : String).data = ['0'] from rfl] at hc
    rw [List.mem_singleton] at hc
    subst hc
    decide
  · exact natStrAux_no_brace (n + 1) n c hc

/-- Zero-padded decimal renderings never contain a brace. -/
theorem padLeft_no_brace (w : Nat) (s : String)
    (hs : ∀ c ∈ s.data, c ≠ '{') :
    ∀ c ∈ (padLeft '0' w s).data, c ≠ '{' := by
  intro c hc
  unfold padLeft at hc
  split at hc
  · simp only [List.mem_append] at hc
    rcases hc with hc | hc
    · rw [List.eq_of_mem_replicate hc]
      decide
    · exact hs c hc
  · exact hs c hc

/-- Month-name table entries never contain a brace. -/
theorem monthShort_no_brace (m : Nat) :
    ∀ c ∈ (MONTH_NAMES_SHORT.getD m "").data, c ≠ '{' := by
  intro c hc
  by_cases hm : m < 13
  · interval_cases m <;> simp_all [MONTH_NAMES_SHORT] <;>
      rcases hc with hc | hc | hc <;> (subst hc; decide)
  · rw [List.getD_eq_default] at hc
    · cases hc
    · simp [MONTH_NAMES_SHORT]
      omega

/-- Characterization of `dropLit`. -/
theorem dropLit_eq_some : ∀ (ls cs rest : Chars),
    dropLit ls cs = some rest ↔ cs = ls ++ rest := by
  intro ls
  induction ls with
  | nil =>
    intro cs rest
    simp only [dropLit, List.nil_append, Option.some.injEq]
  | cons l ls ih =>
    intro cs rest
    cases cs with
    | nil =>
      simp only [dropLit, List.cons_append]
      constructor
      · intro h; cases h
      · intro h; cases h
    | cons c cs =>
      by_cases hc : c = l
      · subst hc
        simp only [dropLit, if_pos rfl, List.cons_append, List.cons.injEq,
          true_and]
        exact ih cs rest
      · simp only [dropLit, if_neg hc, List.cons_append, List.cons.injEq]
        constructor
        · intro h; cases h
        · intro h; exact absurd h.1 hc

/-- Characterization of the case-sensitive suffix test used by
`_get_destination_path`: `endsWithStr s t` holds exactly when `t` is a
suffix of `s`. -/
theorem endsWithStr_iff (s t : String) :
    endsWithStr s t = true ↔ ∃ p, s.data = p ++ t.data := by
  unfold endsWithStr
  rw [Option.isSome_iff_exists]
  constructor
  · rintro ⟨rest, hrest⟩
    rw [dropLit_eq_some] at hrest
    refine ⟨rest.reverse, ?_⟩
    have := congrArg List.reverse hrest
    simpa [List.reverse_append] using this
  · rintro ⟨p, hp⟩
    refine ⟨p.reverse, ?_⟩
    rw [dropLit_eq_some, hp]
    simp [List.reverse_append]

/-- C7.  Pattern rendering substitutes the named placeholders for every
datetime and filename (shown in full generality on the spec's example
pattern, with zero-padding and month-name substitution), leaves unrecognized
placeholders verbatim, and the destination filename appends the extension
exactly when the rendered name does not already end with it
case-insensitively; the two spec examples render to `"2025-01-Jan"` and
`"photo.jpg"`. -/
theorem claim7_pattern_rendering :
    (∀ (dt : DateTime) (oname ext : String),
      _format_pattern "{year}-{month:02d}-{month_name_short}" dt oname ext =
        some ⟨(natStr dt.year).data ++ '-' ::
          ((padLeft '0' 2 (natStr dt.month)).data ++ '-' ::
            (MONTH_NAMES_SHORT.getD dt.month "").data)⟩) ∧
    _format_pattern "{year}-{month:02d}-{month_name_short}"
      ⟨2025, 1, 15, 10, 30, 0⟩ "photo.JPG" ".JPG" = some "2025-01-Jan" ∧
    destinationFilename "{original_name}.{ext}" ⟨2025, 1, 15, 10, 30, 0⟩
      "photo.JPG" ".JPG" = some "photo.jpg" ∧
    _format_pattern "{foo}-{month}" ⟨2025, 1, 15, 10, 30, 0⟩ "a" ".jpg" =
      some "{foo}-1" ∧
    (∀ (pat : String) (dt : DateTime) (n ext f : String),
      _format_pattern pat dt n ext = some f →
      ((∃ p, (lowerStr f).data = p ++ (lowerStr ext).data) →
        destinationFilename pat dt n ext = some f) ∧
      (¬(∃ p, (lowerStr f).data = p ++ (lowerStr ext).data) →
        destinationFilename pat dt n ext = some (f ++ "." ++ lstripDots ext))) := by
  refine ⟨?_, by decide, by decide, by decide, ?_⟩
  · intro dt oname ext
    have hY := natStr_no_brace dt.year
    have hP := padLeft_no_brace 2 (natStr dt.month) (natStr_no_brace dt.month)
    have hS := monthShort_no_brace dt.month
    have p1 : subKey "year".data (FmtVal.int dt.year)
        ("{year}-{month:02d}-{month_name_short}" : String).data =
        some ((natStr dt.year).data ++
          ("-{month:02d}-{month_name_short}" : String).data) := rfl
    have p2 : subKey "month".data (FmtVal.int dt.month)
        ((natStr dt.year).data ++
          ("-{month:02d}-{month_name_short}" : String).data) =
        some ((natStr dt.year).data ++ '-' ::
          ((padLeft '0' 2 (natStr dt.month)).data ++
            ("-{month_name_short}" : String).data)) := by
      rw [subKey_walk2 _ _ _ _ hY]
      rfl
    have pid : ∀ (key : Chars) (fv : FmtVal),
        subKey key fv ("-{month_name_short}" : String).data =
          some ("-{month_name_short}" : String).data →
        subKey key fv ((natStr dt.year).data ++ '-' ::
          ((padLeft '0' 2 (natStr dt.month)).data ++
            ("-{month_name_short}" : String).data)) =
        some ((natStr dt.year).data ++ '-' ::
          ((padLeft '0' 2 (natStr dt.month)).data ++
            ("-{month_name_short}" : String).data)) := by
      intro key fv htail
      rw [subKey_walk2 _ _ _ _ hY, subKey_cons _ _ _ _ (by decide),
        subKey_walk2 _ _ _ _ hP, htail]
      rfl
    have p8 : subKey "month_name_short".data
        (FmtVal.str (MONTH_NAMES_SHORT.getD dt.month ""))
        ((natStr dt.year).data ++ '-' ::
          ((padLeft '0' 2 (natStr dt.month)).data ++
            ("-{month_name_short}" : String).data)) =
        some ((natStr dt.year).data ++ '-' ::
          ((padLeft '0' 2 (natStr dt.month)).data ++ '-' ::
            (MONTH_NAMES_SHORT.getD dt.month "").data)) := by
      rw [subKey_walk2 _ _ _ _ hY, subKey_cons _ _ _ _ (by decide),
        subKey_walk2 _ _ _ _ hP]
      rw [show subKey "month_name_short".data
        (FmtVal.str (MONTH_NAMES_SHORT.getD dt.month ""))
        ("-{month_name_short}" : String).data =
        some ('-' :: ((MONTH_NAMES_SHORT.getD dt.month "").data ++ []))
        from rfl]
      simp
    have pid2 : ∀ (key : Chars) (fv : FmtVal),
        subKey key fv ((natStr dt.year).data ++ '-' ::
          ((padLeft '0' 2 (natStr dt.month)).data ++ '-' ::
            (MONTH_NAMES_SHORT.getD dt.month "").data)) =
        some ((natStr dt.year).data ++ '-' ::
          ((padLeft '0' 2 (natStr dt.month)).data ++ '-' ::
            (MONTH_NAMES_SHORT.getD dt.month "").data)) := by
      intro key fv
      rw [subKey_walk2 _ _ _ _ hY, subKey_cons _ _ _ _ (by decide),
        subKey_walk2 _ _ _ _ hP, subKey_cons _ _ _ _ (by decide),
        subKey_id _ _ _ hS]
      rfl
    have p3 := pid "day".data (FmtVal.int dt.day) rfl
    have p4 := pid "hour".data (FmtVal.int dt.hour) rfl
    have p5 := pid "min".data (FmtVal.int dt.minute) rfl
    have p6 := pid "sec".data (FmtVal.int dt.second) rfl
    have p7 := pid "month_name".data
      (FmtVal.str (MONTH_NAMES.getD dt.month "")) rfl
    have p9 := pid2 "original_name".data (FmtVal.str (pathStem oname))
    have p10 := pid2 "ext".data (FmtVal.str (lstripDots (lowerStr ext)))
    show Option.map (fun cs => (⟨cs⟩ : String))
      ((subKey "year".data (FmtVal.int dt.year)
          ("{year}-{month:02d}-{month_name_short}" : String).data).bind fun a =>
        (subKey "month".data (FmtVal.int dt.month) a).bind fun a =>
        (subKey "day".data (FmtVal.int dt.day) a).bind fun a =>
        (subKey "hour".data (FmtVal.int dt.hour) a).bind fun a =>
        (subKey "min".data (FmtVal.int dt.minute) a).bind fun a =>
        (subKey "sec".data (FmtVal.int dt.second) a).bind fun a =>
        (subKey "month_name".data
          (FmtVal.str (MONTH_NAMES.getD dt.month "")) a).bind fun a =>
        (subKey "month_name_short".data
          (FmtVal.str (MONTH_NAMES_SHORT.getD dt.month "")) a).bind fun a =>
        (subKey "original_name".data (FmtVal.str (pathStem oname)) a).bind
          fun a =>
        (subKey "ext".data (FmtVal.str (lstripDots (lowerStr ext))) a).bind
          fun a => pure a) = _
    rw [p1, Option.some_bind, p2, Option.some_bind, p3, Option.some_bind,
      p4, Option.some_bind, p5, Option.some_bind, p6, Option.some_bind,
      p7, Option.some_bind, p8, Option.some_bind, p9, Option.some_bind,
      p10, Option.some_bind]
    rfl
  · intro pat dt n ext f hf
    constructor
    · intro hex
      unfold destinationFilename
      rw [hf]
      simp only [Option.map_some']
      rw [if_pos ((endsWithStr_iff _ _).mpr hex)]
    · intro hnex
      unfold destinationFilename
      rw [hf]
      simp only [Option.map_some']
      rw [if_neg (fun hcond => hnex ((endsWithStr_iff _ _).mp hcond))]

/-- C7 witness: the generic conjunct applied at a concrete datetime, and the
extension conjunct applied to the spec's `photo.JPG` example. -/
theorem claim7_witness :
    _format_pattern "{year}-{month:02d}-{month_name_short}"
      ⟨2024, 3, 1, 2, 3, 4⟩ "x" ".jpg" =
      some ⟨(natStr 2024).data ++ '-' ::
        ((padLeft '0' 2 (natStr 3)).data ++ '-' ::
          (MONTH_NAMES_SHORT.getD 3 "").data)⟩ ∧
    destinationFilename "{original_name}.{ext}" ⟨2025, 1, 15, 10, 30, 0⟩
      "photo.JPG" ".JPG" = some "photo.jpg" := by
  constructor
  · exact claim7_pattern_rendering.1 ⟨2024, 3, 1, 2, 3, 4⟩ "x" ".jpg"
  · have h := (claim7_pattern_rendering.2.2.2.2 "{original_name}.{ext}"
      ⟨2025, 1, 15, 10, 30, 0⟩ "photo.JPG" ".JPG" "photo.jpg" (by decide)).1
    exact h ⟨"photo".data, by decide⟩

/-- C6 witness: the amended theorem applied to the counterexample's map,
where `EXIF:CreateDate` is the first usable tag. -/
theorem claim6_witness :
    parse_datetime
      [("EXIF:DateTimeOriginal", "not a datetime"),
       ("EXIF:CreateDate", "2024:01:02 03:04:05")] =
      (some ⟨2024, 1, 2, 3, 4, 5⟩, some "EXIF:CreateDate") :=
  claim6_first_usable_tag_wins
    [("EXIF:DateTimeOriginal", "not a datetime"),
     ("EXIF:CreateDate", "2024:01:02 03:04:05")]
    ["EXIF:DateTimeOriginal"] "EXIF:CreateDate"
    ["EXIF:ModifyDate", "XMP:DateTimeOriginal", "XMP:CreateDate",
     "XMP:ModifyDate", "QuickTime:CreateDate", "QuickTime:ModifyDate",
     "QuickTime:MediaCreateDate", "QuickTime:MediaModifyDate",
     "QuickTime:TrackCreateDate", "QuickTime:TrackModifyDate"]
    ⟨2024, 1, 2, 3, 4, 5⟩ (by decide) (by decide) (by decide)

end PhotoOrg
